import Mathlib

/-!
Verification development for the persona-driven document-intelligence
pipeline (Adobe Hackathon Round 1B repository).

The Python sources under `src/` are shallowly embedded below:

* Python `float` arithmetic is modelled by exact rational arithmetic.  To
  keep every definition executable by kernel reduction we use a small
  normalised fraction type `Q` (numerator, positive denominator) together
  with an evaluation map `Q.toRat` into Mathlib's `ℚ`, through which the
  algebraic lemmas are transported.
* Python strings are Lean `String`s; all of the string operations used by
  the sources (strip, lower, split, regex prefix matches, ...) are
  re-implemented structurally on `List Char` so that they reduce.
* Python dicts that act as records (`element`, `heading`, section dicts,
  the result JSON) become structures; keys that are only added later in
  the pipeline become `Option` fields.
* The persona / job arguments are Python objects on which the sources call
  `.get(...)`; they are modelled by `PyValue` (a string or a dict), and the
  `AttributeError` a string raises is modelled with `Except PyErr`.
* `statistics.stdev` computes a square root, which is irrational in
  general; it is threaded through the embedding as an explicit function
  parameter `stdev : List Q → Q` (an oracle for the external math
  library).  `statistics.mean` and `statistics.median` are exact and are
  embedded directly.
* `datetime.now().isoformat()` is modelled as an explicit `timestamp`
  argument of a run.  `print` calls (debug logging) have no observable
  effect on the returned values and are dropped.
-/

/- `List.mergeSort` is sealed in core; make it reducible so that concrete
pipeline runs can be evaluated by `decide`. -/
attribute [local semireducible] List.mergeSort List.merge

/-- Exact rational numbers with an always-positive denominator, kept in
lowest terms by the smart constructor `Q.norm`.  Models Python `float`
values by exact arithmetic. -/
structure Q where
  num : Int
  den : Nat
  den_pos : 0 < den

instance : DecidableEq Q := fun a b =>
  decidable_of_iff (a.num = b.num ∧ a.den = b.den) (by cases a; cases b; simp)

/-- Normalising constructor: divides out the gcd. -/
def Q.norm (n : Int) (d : Nat) (h : 0 < d) : Q :=
  let g := Nat.gcd n.natAbs d
  ⟨n / (g : Int), d / g, by
    have hg : 0 < g := Nat.gcd_pos_of_pos_right _ h
    exact Nat.div_pos (Nat.le_of_dvd h (Nat.gcd_dvd_right _ _)) hg⟩

/-- The rational zero. -/
def q0 : Q := ⟨0, 1, Nat.one_pos⟩

/-- Embed an integer. -/
def qI (n : Int) : Q := ⟨n, 1, Nat.one_pos⟩

/-- Literal fraction `n / d` (normalised); `d = 0` never occurs in use. -/
def qq (n : Int) (d : Nat) : Q := if h : 0 < d then Q.norm n d h else q0

def Q.add (a b : Q) : Q :=
  Q.norm (a.num * b.den + b.num * a.den) (a.den * b.den) (Nat.mul_pos a.den_pos b.den_pos)

def Q.neg (a : Q) : Q := ⟨-a.num, a.den, a.den_pos⟩

def Q.sub (a b : Q) : Q := a.add b.neg

def Q.mul (a b : Q) : Q :=
  Q.norm (a.num * b.num) (a.den * b.den) (Nat.mul_pos a.den_pos b.den_pos)

/-- Division; division by zero never happens on executed code paths and is
given the junk value `q0`. -/
def Q.div (a b : Q) : Q :=
  if hb : b.num = 0 then q0
  else
    Q.norm (a.num * (b.den : Int) * Int.sign b.num) (a.den * b.num.natAbs)
      (Nat.mul_pos a.den_pos (Int.natAbs_pos.mpr hb))

def Q.le (a b : Q) : Prop := a.num * (b.den : Int) ≤ b.num * (a.den : Int)

def Q.lt (a b : Q) : Prop := a.num * (b.den : Int) < b.num * (a.den : Int)

instance (a b : Q) : Decidable (a.le b) :=
  inferInstanceAs (Decidable (_ ≤ _))

instance (a b : Q) : Decidable (a.lt b) :=
  inferInstanceAs (Decidable (_ < _))

def Q.ble (a b : Q) : Bool := decide (a.le b)

def Q.blt (a b : Q) : Bool := decide (a.lt b)

/-- Python `min(x, y)` (returns the first argument on ties). -/
def Q.pmin (a b : Q) : Q := if b.lt a then b else a

/-- Python `max(x, y)` (returns the first argument on ties). -/
def Q.pmax (a b : Q) : Q := if a.lt b then b else a

/-- Evaluation into Mathlib's rationals; the algebraic facts about the
pipeline's scores are proved through this map. -/
def Q.toRat (a : Q) : ℚ := (a.num : ℚ) / (a.den : ℚ)

/-! ### Python string primitives

All string functions used by the sources, implemented by structural
recursion over `List Char` so that concrete runs reduce in the kernel. -/

namespace Py

abbrev Chars := List Char

/-- Python whitespace (`str.strip`, `\s`), ASCII range. -/
def isSpace (c : Char) : Bool :=
  c = ' ' || c = '\t' || c = '\n' || c = '\r' || c = '\x0b' || c = '\x0c'

/-- Python `str.lower` restricted to ASCII plus `Â` (U+00C2), the one
non-ASCII cased character appearing in the sources' literals. -/
def lower (c : Char) : Char :=
  if 'A' ≤ c ∧ c ≤ 'Z' then Char.ofNat (c.toNat + 32)
  else if c = 'Â' then 'â' else c

def isDigit (c : Char) : Bool := '0' ≤ c && c ≤ '9'

/-- ASCII letter (the sources' regexes run with `re.IGNORECASE`, so
`[A-Z]` matches both cases; Python's full-unicode classes are modelled on
the ASCII range the analysed documents use). -/
def isAlpha (c : Char) : Bool := 'a' ≤ lower c && lower c ≤ 'z'

/-- Python `\w` (ASCII range). -/
def isWord (c : Char) : Bool := isAlpha c || isDigit c || c = '_'

def lowerL (l : Chars) : Chars := l.map lower

def stripL (l : Chars) : Chars :=
  (((l.dropWhile isSpace).reverse).dropWhile isSpace).reverse

def strip (s : String) : String := ⟨stripL s.data⟩

def lowerS (s : String) : String := ⟨lowerL s.data⟩

def lenS (s : String) : Nat := s.data.length

def takeS (s : String) (n : Nat) : String := ⟨s.data.take n⟩

def dropS (s : String) (n : Nat) : String := ⟨s.data.drop n⟩

/-- Maximal runs of characters satisfying `p`, left to right. -/
def runs (p : Char → Bool) (l : Chars) : List Chars :=
  let step := fun c (acc : Chars × List Chars) =>
    if p c then (c :: acc.1, acc.2)
    else ([], if acc.1.isEmpty then acc.2 else acc.1 :: acc.2)
  let r := l.foldr step ([], [])
  if r.1.isEmpty then r.2 else r.1 :: r.2

/-- Python `str.split()` (split on whitespace runs, no empties). -/
def tokensL (l : Chars) : List Chars := runs (fun c => !isSpace c) l

def tokens (s : String) : List String := (tokensL s.data).map String.mk

/-- Python `re.findall(r'\b\w+\b', s)`: maximal word-character runs. -/
def wordRuns (l : Chars) : List Chars := runs isWord l

/-- Split at every character satisfying `p`, keeping empty pieces
(Python `re.split('[.!?]', s)` behaviour). -/
def splitAnyChar (p : Char → Bool) (l : Chars) : List Chars :=
  l.foldr
    (fun c acc =>
      if p c then [] :: acc
      else
        match acc with
        | [] => [[c]]
        | a :: as => (c :: a) :: as)
    [[]]

def isPfx : Chars → Chars → Bool
  | [], _ => true
  | _ :: _, [] => false
  | a :: as, b :: bs => a = b && isPfx as bs

/-- Python substring containment `needle in hay`. -/
def hasSub : Chars → Chars → Bool
  | [], needle => needle.isEmpty
  | c :: cs, needle => isPfx needle (c :: cs) || hasSub cs needle

def containsS (hay sub : String) : Bool := hasSub hay.data sub.data

/-- Python `re.sub(r'\s+', ' ', s)`: collapse every whitespace run to a
single space. -/
def wsCollapse (l : Chars) : Chars :=
  (l.foldr
    (fun c (acc : Chars × Bool) =>
      if isSpace c then (if acc.2 then acc.1 else ' ' :: acc.1, true)
      else (c :: acc.1, false))
    ([], false)).1

/-- Python `' '.join`. -/
def joinSpL : List Chars → Chars
  | [] => []
  | [x] => x
  | x :: y :: ys => x ++ ' ' :: joinSpL (y :: ys)

def joinSp (l : List String) : String := ⟨joinSpL (l.map String.data)⟩

def parseDigits (l : Chars) : Option Nat :=
  if l.isEmpty || !(l.all isDigit) then none
  else some (l.foldl (fun n c => n * 10 + (c.toNat - 48)) 0)

/-- Python `int(s)` on the string forms the pipeline feeds it (optional
sign, decimal digits, surrounding whitespace); `none` models the
`ValueError` raise. -/
def strIntL (l : Chars) : Option Int :=
  match stripL l with
  | '+' :: rest => (parseDigits rest).map Int.ofNat
  | '-' :: rest => (parseDigits rest).map (fun n => -(n : Int))
  | t => (parseDigits t).map Int.ofNat

end Py

deriving instance DecidableEq for Except

/-- Python exceptions that can arise inside the embedded pipeline. -/
inductive PyErr
  | attributeError
  | valueError
deriving DecidableEq, Repr

/-- Python `int(s)` as a fallible computation. -/
def strToInt (s : String) : Except PyErr Int :=
  match Py.strIntL s.data with
  | some n => Except.ok n
  | none => Except.error PyErr.valueError

/-- The persona / job argument as the callers hand it to the core: either a
plain free-text string (the documented interface and what `main.py`
passes) or a dict such as `{"role": ...}`.  Calling `.get` on a string
raises `AttributeError`. -/
inductive PyValue
  | str (s : String)
  | dict (entries : List (String × String))
deriving DecidableEq

/-- Python `value.get(key, default)`: dict lookup (last binding wins), or
an `AttributeError` when the receiver is a string. -/
def PyValue.get (v : PyValue) (key default : String) : Except PyErr String :=
  match v with
  | .str _ => Except.error PyErr.attributeError
  | .dict es =>
      Except.ok ((es.foldl (fun acc kv => if kv.1 = key then some kv.2 else acc) none).getD default)

/-! ### Prefix matchers for the sources' regular expressions

`re.match` anchors at the start only; each pattern below is implemented as
a deterministic prefix matcher.  The character classes the patterns chain
(digits, dots, whitespace, letters) are pairwise disjoint, so greedy
matching without backtracking is exact; the single alternation that needs
care (`https?://`) is handled explicitly. -/

namespace RegexPy

open Py

/-- Consume one or more characters of class `p`. -/
def chomp1 (p : Char → Bool) (cs : Chars) : Option Chars :=
  if (cs.takeWhile p).isEmpty then none else some (cs.dropWhile p)

/-- Consume an optional single character `c`. -/
def chompOpt (c : Char) : Chars → Chars
  | [] => []
  | c' :: rest => if c' = c then rest else c' :: rest

/-- Consume exactly the character `c`. -/
def chompChar (c : Char) : Chars → Option Chars
  | [] => none
  | c' :: rest => if c' = c then some rest else none

/-- Consume a case-insensitive literal. -/
def chompLit : Chars → Chars → Option Chars
  | [], cs => some cs
  | _ :: _, [] => none
  | l :: ls, c :: cs => if lower c = lower l then chompLit ls cs else none

/-- Consume one character of class `p`. -/
def chompOne (p : Char → Bool) : Chars → Option Chars
  | [] => none
  | c :: rest => if p c then some rest else none

/-- Consume between one and two digits (regex `\d{1,2}`; with a
following delimiter of a disjoint class, three or more digits fail). -/
def chompDigits12 (cs : Chars) : Option Chars :=
  let ds := cs.takeWhile isDigit
  if ds.isEmpty || decide (2 < ds.length) then none else some (cs.dropWhile isDigit)

def isIvx (c : Char) : Bool := lower c = 'i' || lower c = 'v' || lower c = 'x'

def isSlashDash (c : Char) : Bool := c = '/' || c = '-'

/-- `^\d+\.?\s+[A-Z]` (IGNORECASE). -/
def mHeading1 (cs : Chars) : Bool :=
  ((chomp1 isDigit cs).map (chompOpt '.') |>.bind (chomp1 isSpace) |>.bind (chompOne isAlpha)).isSome

/-- `^\d+\.\d+\.?\s+` (IGNORECASE). -/
def mHeading2 (cs : Chars) : Bool :=
  ((chomp1 isDigit cs).bind (chompChar '.') |>.bind (chomp1 isDigit) |>.map (chompOpt '.')
    |>.bind (chomp1 isSpace)).isSome

/-- `^\d+\.\d+\.\d+` (IGNORECASE). -/
def mHeading3 (cs : Chars) : Bool :=
  ((chomp1 isDigit cs).bind (chompChar '.') |>.bind (chomp1 isDigit) |>.bind (chompChar '.')
    |>.bind (chomp1 isDigit)).isSome

/-- `^[A-Z][a-z]+:` (IGNORECASE). -/
def mHeading4 (cs : Chars) : Bool :=
  ((chompOne isAlpha cs).bind (chomp1 isAlpha) |>.bind (chompChar ':')).isSome

/-- `^[IVX]+\.?\s+[A-Z]` (IGNORECASE). -/
def mHeading5 (cs : Chars) : Bool :=
  ((chomp1 isIvx cs).map (chompOpt '.') |>.bind (chomp1 isSpace) |>.bind (chompOne isAlpha)).isSome

/-- `^[A-Z]\.?\s+[A-Z]` (IGNORECASE). -/
def mHeading6 (cs : Chars) : Bool :=
  ((chompOne isAlpha cs).map (chompOpt '.') |>.bind (chomp1 isSpace) |>.bind (chompOne isAlpha)).isSome

/-- `^Chapter\s+\d+` (IGNORECASE). -/
def mHeading7 (cs : Chars) : Bool :=
  ((chompLit ['c','h','a','p','t','e','r'] cs).bind (chomp1 isSpace) |>.bind (chomp1 isDigit)).isSome

/-- `^Section\s+\d+` (IGNORECASE). -/
def mHeading8 (cs : Chars) : Bool :=
  ((chompLit ['s','e','c','t','i','o','n'] cs).bind (chomp1 isSpace) |>.bind (chomp1 isDigit)).isSome

/-- `^Appendix\s+[A-Z]` (IGNORECASE). -/
def mHeading9 (cs : Chars) : Bool :=
  ((chompLit ['a','p','p','e','n','d','i','x'] cs).bind (chomp1 isSpace) |>.bind (chompOne isAlpha)).isSome

/-- `^\d+\.` -/
def mNumDot (cs : Chars) : Bool :=
  ((chomp1 isDigit cs).bind (chompChar '.')).isSome

/-- `^\d+\.\d+` -/
def mNumDotNum (cs : Chars) : Bool :=
  ((chomp1 isDigit cs).bind (chompChar '.') |>.bind (chomp1 isDigit)).isSome

/-- `^\d+\.\d+\.\d+` -/
def mNumDotNumDotNum (cs : Chars) : Bool := mHeading3 cs

/-- `^\d+$` (`$` also matches just before one trailing newline). -/
def mDigitsOnly (cs : Chars) : Bool :=
  match chomp1 isDigit cs with
  | some rest => rest.isEmpty || rest = ['\n']
  | none => false

/-- `^page\s+\d+` (IGNORECASE). -/
def mPageNum (cs : Chars) : Bool :=
  ((chompLit ['p','a','g','e'] cs).bind (chomp1 isSpace) |>.bind (chomp1 isDigit)).isSome

/-- Date pattern: one-or-two digits, a slash or dash, one-or-two digits,
a slash or dash, then two-to-four digits. -/
def mDate (cs : Chars) : Bool :=
  ((chompDigits12 cs).bind (chompOne isSlashDash) |>.bind chompDigits12
    |>.bind (chompOne isSlashDash)
    |>.bind (fun rest => if decide (2 ≤ (rest.takeWhile isDigit).length) then some rest else none)).isSome

/-- `^copyright\s+` (IGNORECASE). -/
def mCopyright (cs : Chars) : Bool :=
  ((chompLit ['c','o','p','y','r','i','g','h','t'] cs).bind (chomp1 isSpace)).isSome

/-- `^©\s*\d{4}` -/
def mCopSymbol (cs : Chars) : Bool :=
  ((chompChar '©' cs).map (List.dropWhile isSpace)
    |>.bind (fun rest => if decide (4 ≤ (rest.takeWhile isDigit).length) then some rest else none)).isSome

/-- `^\s*$` -/
def mBlank (cs : Chars) : Bool := cs.all isSpace

/-- `^[a-z]+@[a-z]+\.` (IGNORECASE). -/
def mEmail (cs : Chars) : Bool :=
  ((chomp1 isAlpha cs).bind (chompChar '@') |>.bind (chomp1 isAlpha) |>.bind (chompChar '.')).isSome

/-- `^https?://` (IGNORECASE). -/
def mUrl (cs : Chars) : Bool :=
  ((chompLit ['h','t','t','p'] cs).bind
    (fun rest =>
      match chompLit ['s',':','/','/'] rest with
      | some r => some r
      | none => chompLit [':','/','/'] rest)).isSome

/-- `^\d+\.?\s+` (hierarchical pattern level 1). -/
def mHier1 (cs : Chars) : Bool :=
  ((chomp1 isDigit cs).map (chompOpt '.') |>.bind (chomp1 isSpace)).isSome

/-- `^\d+\.\d+\.?\s+` (hierarchical pattern level 2). -/
def mHier2 (cs : Chars) : Bool := mHeading2 cs

/-- `^\d+\.\d+\.\d+\.?\s+` (hierarchical pattern level 3). -/
def mHier3 (cs : Chars) : Bool :=
  ((chomp1 isDigit cs).bind (chompChar '.') |>.bind (chomp1 isDigit) |>.bind (chompChar '.')
    |>.bind (chomp1 isDigit) |>.map (chompOpt '.') |>.bind (chomp1 isSpace)).isSome

/-- `^\d+\.\d+\.\d+\.\d+` (hierarchical pattern level 4). -/
def mHier4 (cs : Chars) : Bool :=
  ((chomp1 isDigit cs).bind (chompChar '.') |>.bind (chomp1 isDigit) |>.bind (chompChar '.')
    |>.bind (chomp1 isDigit) |>.bind (chompChar '.') |>.bind (chomp1 isDigit)).isSome

end RegexPy

/-! ### Data model -/

/-- One text span as produced by the (external) PDF parser, plus the
`heading_score` key the text analyzer adds.  The parser always populates
every field, so the sources' `element.get(key, default)` reads are plain
field reads here; `heading_score` is `Option`-valued because it is only
present after analysis.  (The write-only `heading_features` debug map the
analyzer also records is read by nothing downstream and is not modelled.) -/
structure Element where
  text : String
  page : Nat
  bbox : Q × Q × Q × Q
  font_size : Q
  is_bold : Bool
  is_caps : Bool
  x_position : Q
  y_position : Q
  heading_score : Option Q := none
deriving DecidableEq

/-- One parsed page. -/
structure Page where
  page_number : Nat
  elements : List Element
deriving DecidableEq

/-- A heading candidate / detected heading.  Keys that only some
strategies or stages set are `Option`-valued (`pattern_level`,
`font_level`, `detection_methods`, `level`). -/
structure Heading where
  text : String
  page : Nat
  font_size : Q
  is_bold : Bool
  bbox : Q × Q × Q × Q
  y_position : Q
  x_position : Q
  detection_method : String
  confidence : Q
  pattern_level : Option Nat := none
  font_level : Option Nat := none
  detection_methods : Option (List String) := none
  level : Option String := none
deriving DecidableEq

/-- A section dict as built by the relevance analyzer
(`section_title` / `page_number` / `content` / `heading_level`), with the
keys later stages add (`relevance_score`, `document`, `final_score`) as
`Option` fields. -/
structure SectionDict where
  section_title : String
  page_number : Nat
  content : String
  heading_level : String
  relevance_score : Option Q := none
  document : Option String := none
  final_score : Option Q := none
deriving DecidableEq

/-- A parsed document as assembled by `_parse_single_document`. -/
structure DocumentData where
  file_path : String
  file_name : String
  title : String
  pages_data : List Page
  headings : List Heading
  analyzed_elements : List Element
deriving DecidableEq

/-- One record of the `extracted_sections` output list. -/
structure ExtractedSection where
  document : String
  page_number : Nat
  section_title : String
  importance_rank : Nat
deriving DecidableEq

/-- One record of the `subsection_analysis` output list. -/
structure SubsectionRecord where
  document : String
  section_title : String
  refined_text : String
  page_number : Nat
  relevance_score : Q
  key_insights : List String
deriving DecidableEq

/-- The `metadata` object of the result JSON. -/
structure ResultMetadata where
  input_documents : List String
  persona : PyValue
  job_to_be_done : PyValue
  processing_timestamp : String
deriving DecidableEq

/-- The complete result returned by `process_document_collection`. -/
structure ResultD where
  metadata : ResultMetadata
  extracted_sections : List ExtractedSection
  subsection_analysis : List SubsectionRecord
deriving DecidableEq

/-- Decimal digits of a natural number (fuel-based so that it reduces in
the kernel; models Python f-string interpolation of an int). -/
def natToCharsAux : Nat → Nat → Py.Chars
  | 0, _ => []
  | fuel + 1, n =>
      if n < 10 then [Char.ofNat (48 + n)]
      else natToCharsAux fuel (n / 10) ++ [Char.ofNat (48 + n % 10)]

def natToStr (n : Nat) : String := ⟨natToCharsAux (n + 1) n⟩

/-! ### `text_analyzer.py` -/

namespace TextAnalyzer

/-- `self.heading_keywords` (a Python set; only membership tests are
performed on it, so a list is an exact model). -/
def heading_keywords : List String :=
  ["introduction", "conclusion", "summary", "overview", "background",
   "methodology", "method", "approach", "results", "discussion",
   "chapter", "section", "appendix", "references", "bibliography",
   "abstract", "objectives", "goals", "requirements", "specifications",
   "implementation", "analysis", "evaluation", "recommendations",
   "acknowledgments", "acknowledgements", "contents", "index"]

open RegexPy in
/-- `_analyze_text_patterns`: 1.5 for the first matching heading pattern,
plus the `^\d+\.` / `^\d+\.\d+` / `^\d+\.\d+\.\d+` if/elif chain. -/
def analyze_text_patterns (text : String) : Q :=
  let cs := text.data
  let s1 :=
    if mHeading1 cs || mHeading2 cs || mHeading3 cs || mHeading4 cs || mHeading5 cs ||
        mHeading6 cs || mHeading7 cs || mHeading8 cs || mHeading9 cs then
      qq 3 2
    else q0
  let s2 :=
    if mNumDot cs then qI 1
    else if mNumDotNum cs then qq 6 5
    else if mNumDotNumDotNum cs then qI 1
    else q0
  s1.add s2

/-- `_matches_exclude_patterns`. -/
def matches_exclude_patterns (text : String) : Bool :=
  let cs := text.data
  RegexPy.mDigitsOnly cs || RegexPy.mPageNum cs || RegexPy.mDate cs ||
    RegexPy.mCopyright cs || RegexPy.mCopSymbol cs || RegexPy.mBlank cs ||
    RegexPy.mEmail cs || RegexPy.mUrl cs

/-- `_analyze_single_element`: the additive heading score, floored at 0 by
`max(0, score)`.  (`median_font` is passed by the caller but unused, as in
the source.) -/
def analyze_single_element (element : Element) (avg_font median_font font_std : Q) : Element :=
  let text := Py.strip element.text
  let font_size := element.font_size
  let s1 :=
    if avg_font.lt font_size then
      Q.pmin ((font_size.sub avg_font).div (font_std.pmax (qI 1))) (qI 3)
    else q0
  let s2 := if element.x_position.lt (qI 100) then qq 1 2 else q0
  let pattern_score := analyze_text_patterns text
  let s4 := if Py.lenS text < 100 then qq 1 2 else q0
  let s5 := if Py.lenS text < 50 then qq 1 2 else q0
  let words := Py.tokens text
  let s6 := if words.length ≤ 10 then qq 1 2 else q0
  let s7 :=
    if heading_keywords.any (fun kw => Py.containsS (Py.lowerS text) kw) then qI 1 else q0
  let s8 := if element.is_bold then qI 1 else q0
  let s9 := if element.is_caps && decide (3 < Py.lenS text) then qq 1 2 else q0
  let s10 := if matches_exclude_patterns text then (qI 2).neg else q0
  let score :=
    ((((((((s1.add s2).add pattern_score).add s4).add s5).add s6).add s7).add s8).add s9).add s10
  { element with heading_score := some (Q.pmax q0 score) }

/-- `statistics.mean` (exact). -/
def mean (l : List Q) : Q := (l.foldl Q.add q0).div (qI l.length)

/-- `statistics.median` (exact; callers only apply it to non-empty
lists). -/
def median (l : List Q) : Q :=
  let sorted := l.mergeSort Q.ble
  let n := sorted.length
  if n % 2 = 1 then (sorted.get? (n / 2)).getD q0
  else (((sorted.get? (n / 2 - 1)).getD q0).add ((sorted.get? (n / 2)).getD q0)).div (qI 2)

/-- `analyze_elements`; `stdev` is the external `statistics.stdev`
oracle (its exact value is irrational in general). -/
def analyze_elements (stdev : List Q → Q) (pages_data : List Page) : List Element :=
  let all_elements := pages_data.flatMap Page.elements
  if all_elements.isEmpty then []
  else
    let font_sizes := all_elements.map Element.font_size
    let avg_font_size := mean font_sizes
    let median_font_size := median font_sizes
    let font_size_std := if 1 < font_sizes.length then stdev font_sizes else q0
    all_elements.map (fun e => analyze_single_element e avg_font_size median_font_size font_size_std)

end TextAnalyzer

/-! ### `heading_detector.py` -/

namespace HeadingDetector

/-- `_create_heading_dict` (the `detection_method` / `confidence` keys are
filled in by each strategy right after creation). -/
def create_heading_dict (element : Element) : Heading :=
  { text := Py.strip element.text
    page := element.page
    font_size := element.font_size
    is_bold := element.is_bold
    bbox := element.bbox
    y_position := element.y_position
    x_position := element.x_position
    detection_method := ""
    confidence := q0 }

/-- `_detect_by_score`: elements whose `heading_score` reaches 1.5;
confidence `min(score / 5, 1)`. -/
def detect_by_score (elements : List Element) : List Heading :=
  elements.filterMap (fun e =>
    let score := e.heading_score.getD q0
    if (qq 3 2).le score then
      some { create_heading_dict e with
              detection_method := "score"
              confidence := Q.pmin (score.div (qI 5)) (qI 1) }
    else none)

/-- `_detect_by_patterns`: first matching hierarchical numbering pattern
(1-based nesting depth), fixed confidence 0.9. -/
def detect_by_patterns (elements : List Element) : List Heading :=
  elements.filterMap (fun e =>
    let text := Py.strip e.text
    let lvl : Option Nat :=
      if RegexPy.mHier1 text.data then some 1
      else if RegexPy.mHier2 text.data then some 2
      else if RegexPy.mHier3 text.data then some 3
      else if RegexPy.mHier4 text.data then some 4
      else none
    lvl.map (fun level =>
      { create_heading_dict e with
          detection_method := "pattern"
          pattern_level := some level
          confidence := qq 9 10 }))

/-- The element filter inside `_detect_by_font_clustering`: stripped text
of at most 200 characters, not a bare number or a `page N` marker. -/
def font_cluster_ok (e : Element) : Bool :=
  let text := Py.strip e.text
  !(decide (200 < Py.lenS text)) &&
    !(RegexPy.mDigitsOnly (Py.lowerS text).data || RegexPy.mPageNum (Py.lowerS text).data)

/-- The distinct font sizes, largest first (`sorted(font_groups.keys(),
reverse=True)`). -/
def sorted_font_sizes (elements : List Element) : List Q :=
  ((elements.map Element.font_size).dedup).mergeSort (fun a b => Q.ble b a)

/-- The filtered candidate group for one font size. -/
def font_candidates (elements : List Element) (size : Q) : List Element :=
  (elements.filter (fun e => decide (e.font_size = size))).filter font_cluster_ok

/-- The heading emitted by the font-clustering strategy for an element of
the `i`-th largest size group: confidence `0.7 - 0.15 * i`, `font_level`
`i + 1`. -/
def font_heading (e : Element) (i : Nat) : Heading :=
  { create_heading_dict e with
      detection_method := "font_cluster"
      font_level := some (i + 1)
      confidence := (qq 7 10).sub ((qI i).mul (qq 3 20)) }

/-- `_detect_by_font_clustering`: the four largest distinct sizes are
examined; a group is emitted only when its filtered candidates number
between 2 and 20. -/
def detect_by_font_clustering (elements : List Element) : List Heading :=
  ((sorted_font_sizes elements).take 4).enum.flatMap (fun iv =>
    if 2 ≤ (font_candidates elements iv.2).length ∧ (font_candidates elements iv.2).length ≤ 20 then
      (font_candidates elements iv.2).map (fun e => font_heading e iv.1)
    else [])

/-- The merge key of `_combine_strategies`: first 50 characters of the
text, and the page. -/
def combine_key (h : Heading) : String × Nat := (Py.takeS h.text 50, h.page)

/-- One step of the combining dict: on a key collision the existing entry
gets `+0.2` confidence (capped at 1.0) and the new strategy appended to
`detection_methods`; otherwise the candidate is inserted with its own
method as the singleton `detection_methods`. -/
def combine_entry (c : Heading) : Heading :=
  { c with detection_methods := some [c.detection_method] }

def boost_entry (h : Heading) (c : Heading) : Heading :=
  { h with
      confidence := Q.pmin (h.confidence.add (qq 1 5)) (qI 1)
      detection_methods := some ((h.detection_methods.getD []) ++ [c.detection_method]) }

def insert_candidate (st : List Heading) (c : Heading) : List Heading :=
  if st.any (fun h => decide (combine_key h = combine_key c)) then
    st.map (fun h => if decide (combine_key h = combine_key c) then boost_entry h c else h)
  else st ++ [combine_entry c]

/-- `_combine_strategies` (in Python a dict keyed by `combine_key`,
iterated in insertion order). -/
def combine_strategies (strategy_results : List (List Heading)) : List Heading :=
  strategy_results.flatten.foldl insert_candidate []

/-- `_determine_heading_level`: a pattern-derived depth wins; otherwise
the rank of the font size among all candidates' distinct sizes (capped at
6, default 3 when unmatched). -/
def determine_heading_level (h : Heading) (all_headings : List Heading) : Nat :=
  match h.pattern_level with
  | some l => l
  | none =>
      let unique_sizes := ((all_headings.map Heading.font_size).dedup).mergeSort (fun a b => Q.ble b a)
      match unique_sizes.findIdx? (fun s => decide (s = h.font_size)) with
      | some idx => Nat.min (idx + 1) 6
      | none => 3

/-- `_assign_hierarchy_levels` (the `pattern_levels` dict the source also
builds is never read and is dropped). -/
def assign_hierarchy_levels (headings : List Heading) : List Heading :=
  if headings.isEmpty then []
  else
    headings.map (fun h =>
      { h with level := some (⟨'H' :: (natToStr (determine_heading_level h headings)).data⟩ : String) })

/-- The `(page, y_position)` sort key of `detect_headings`. -/
def page_y_le (a b : Heading) : Bool :=
  decide (a.page < b.page) || (decide (a.page = b.page) && Q.ble a.y_position b.y_position)

/-- `detect_headings`: run the three strategies, fuse, assign levels, sort
canonically. -/
def detect_headings (analyzed_elements : List Element) : List Heading :=
  if analyzed_elements.isEmpty then []
  else
    let score_headings := detect_by_score analyzed_elements
    let pattern_headings := detect_by_patterns analyzed_elements
    let font_headings := detect_by_font_clustering analyzed_elements
    let all_candidates := combine_strategies [score_headings, pattern_headings, font_headings]
    let final_headings := assign_hierarchy_levels all_candidates
    final_headings.mergeSort page_y_le

/-- The boilerplate markers of `filter_false_positives`. -/
def boilerplate_markers : List String :=
  ["page ", "copyright", "Â©", "draft", "confidential", "version", "rev", "date:", "author:"]

/-- `filter_false_positives`: discard short texts, bare integers,
boilerplate, and anything with confidence at most 0.3 (strict `> 0.3`). -/
def filter_false_positives (headings : List Heading) : List Heading :=
  headings.filter (fun h =>
    let text := Py.strip h.text
    decide (3 ≤ Py.lenS text) && !(RegexPy.mDigitsOnly text.data) &&
      !(boilerplate_markers.any (fun p => Py.containsS (Py.lowerS text) p)) &&
      Q.blt (qq 3 10) h.confidence)

end HeadingDetector

/-! ### `relevance_analyzer.py` -/

/-- Key strings used by the sources' `dict.get` calls. -/
def roleKey : String := "role"

def taskKey : String := "task"

def emptyS : String := ""

namespace RelevanceAnalyzer

/-- `self.persona_keywords` (dict, insertion order). -/
def persona_keywords : List (String × List String) :=
  [("researcher", ["research", "study", "analysis", "methodology", "experiment", "findings",
      "literature", "survey", "review", "academic", "publication", "dataset", "benchmark",
      "evaluation", "metrics"]),
   ("student", ["learn", "study", "understand", "concept", "theory", "practice", "example",
      "exercise", "problem", "solution", "tutorial", "guide", "basics", "fundamentals",
      "introduction"]),
   ("analyst", ["analysis", "data", "trends", "metrics", "performance", "report", "insights",
      "statistics", "comparison", "evaluation", "assessment", "strategy", "planning",
      "forecast"]),
   ("engineer", ["implementation", "design", "architecture", "system", "technical",
      "specification", "requirements", "development", "engineering", "performance",
      "optimization", "scalability"]),
   ("manager", ["strategy", "planning", "management", "decision", "leadership", "team",
      "project", "resource", "budget", "timeline", "risk", "stakeholder", "business",
      "objective"]),
   ("salesperson", ["sales", "revenue", "customer", "market", "competition", "pricing",
      "product", "service", "client", "prospect", "deal", "negotiation", "relationship",
      "growth"]),
   ("journalist", ["news", "report", "story", "investigation", "interview", "source", "fact",
      "event", "update", "coverage", "article", "publication", "media", "press"]),
   ("entrepreneur", ["business", "startup", "opportunity", "market", "innovation", "investment",
      "funding", "growth", "strategy", "competition", "revenue", "customer", "product",
      "scale"])]

/-- `self.job_keywords` (dict, insertion order; keys carry underscores the
source splits on). -/
def job_keywords : List (String × List String) :=
  [("literature_review", ["review", "survey", "comparison", "analysis", "methodology",
      "findings", "research", "studies", "approaches", "techniques", "evaluation",
      "benchmarks"]),
   ("exam_preparation", ["key", "concepts", "important", "remember", "understand", "practice",
      "example", "problem", "solution", "theory", "principle", "formula", "definition"]),
   ("financial_analysis", ["revenue", "profit", "cost", "expense", "financial", "performance",
      "growth", "investment", "return", "margin", "cash", "budget", "forecast"]),
   ("market_analysis", ["market", "competition", "trends", "share", "size", "growth",
      "opportunity", "threat", "customer", "segment", "positioning", "strategy"]),
   ("technical_implementation", ["implementation", "design", "architecture", "system",
      "technical", "specification", "requirements", "development", "coding", "testing"]),
   ("summary", ["summary", "overview", "key", "main", "important", "highlights", "conclusion",
      "findings", "results", "insights", "takeaways"]),
   ("comparison", ["compare", "comparison", "versus", "difference", "similarity", "contrast",
      "alternative", "option", "choice", "evaluation", "assessment"])]

/-- The stop-word set of `_extract_keywords_from_text`. -/
def stop_words : List String :=
  ["the", "a", "an", "and", "or", "but", "in", "on", "at", "to", "for",
   "of", "with", "by", "is", "are", "was", "were", "be", "been", "have",
   "has", "had", "do", "does", "did", "will", "would", "could", "should",
   "this", "that", "these", "those", "i", "you", "he", "she", "it", "we", "they"]

/-- `_extract_keywords_from_text`: filtered single words plus adjacent
two-word phrases longer than five characters; a Python `set`, modelled as
a `Finset`. -/
def extract_keywords_from_text (text : String) : Finset String :=
  let words := (Py.wordRuns (Py.lowerS text).data).map String.mk
  let singles := words.filter (fun w => decide (2 < Py.lenS w) && !(stop_words.contains w))
  let words_list := words.filter (fun w => !(stop_words.contains w) && decide (2 < Py.lenS w))
  let phrases := (words_list.zip words_list.tail).filterMap (fun p =>
    let phrase := Py.joinSp [p.1, p.2]
    if 5 < Py.lenS phrase then some phrase else none)
  (singles ++ phrases).toFinset

/-- `_get_persona_specific_keywords`: union of the lexicon rows whose
archetype name occurs in the persona string. -/
def get_persona_specific_keywords (persona : String) : Finset String :=
  let persona_lower := Py.lowerS persona
  persona_keywords.foldl
    (fun acc kv => if Py.containsS persona_lower kv.1 then acc ∪ kv.2.toFinset else acc) ∅

/-- `_get_job_specific_keywords`: a row matches when any underscore-part
of its key occurs in the job string. -/
def get_job_specific_keywords (job_to_be_done : String) : Finset String :=
  let job_lower := Py.lowerS job_to_be_done
  job_keywords.foldl
    (fun acc kv =>
      if ((Py.splitAnyChar (fun c => c = '_') kv.1.data).map String.mk).any
          (fun k => Py.containsS job_lower k) then
        acc ∪ kv.2.toFinset
      else acc) ∅

/-- Count the members of a keyword set satisfying a Boolean test. -/
def countWhere (s : Finset String) (p : String → Bool) : Nat :=
  (s.filter (fun x => p x = true)).card

/-- `int(level[1:])` as the source writes it. -/
def levelIntE (level : String) : Except PyErr Int := strToInt (Py.dropS level 1)

/-- `_calculate_relevance_score` (the trailing `persona` /
`job_to_be_done` string parameters are unused, as in the source). -/
def calculate_relevance_score (sec : SectionDict) (persona_kws job_kws : Finset String)
    (persona job_to_be_done : String) : Except PyErr Q := do
  let content := Py.lowerS sec.content
  let title := Py.lowerS sec.section_title
  let title_persona_matches := countWhere persona_kws (fun kw => Py.containsS title kw)
  let title_job_matches := countWhere job_kws (fun kw => Py.containsS title kw)
  let s1 := ((qI title_persona_matches).mul (qq 3 10)).add ((qI title_job_matches).mul (qq 2 5))
  let content_words := ((Py.wordRuns content.data).map String.mk).toFinset
  let persona_matches := (persona_kws ∩ content_words).card
  let job_matches := (job_kws ∩ content_words).card
  let content_length := content_words.card
  let s2 :=
    if 0 < content_length then
      (((qI persona_matches).div (qI content_length)).mul (qq 1 5)).add
        (((qI job_matches).div (qI content_length)).mul (qq 3 10))
    else q0
  let s3 := (qI (countWhere persona_kws
    (fun kw => decide (1 < (Py.tokens kw).length) && Py.containsS content kw))).mul (qq 1 10)
  let s4 := (qI (countWhere job_kws
    (fun kw => decide (1 < (Py.tokens kw).length) && Py.containsS content kw))).mul (qq 3 20)
  let level := sec.heading_level
  let level_num ←
    if Py.isPfx ['H'] level.data then levelIntE level else pure 3
  let level_bonus := Q.pmax q0 ((qI (4 - level_num)).mul (qq 1 20))
  pure (Q.pmin ((((s1.add s2).add s3).add s4).add level_bonus) (qI 1))

/-- `_extract_page_text`: all non-empty stripped element texts of a page,
space-joined. -/
def extract_page_text (page_data : Page) : String :=
  Py.joinSp (((page_data.elements.map (fun e => Py.strip e.text)).filter
    (fun t => !(decide (t = emptyS)))))

/-- The y-interval test of `_extract_page_text_for_section`
(`start_y <= y < end_y`, where `end_y = none` models `float('inf')`). -/
def in_y_range (start_y : Q) (end_y : Option Q) (e : Element) : Bool :=
  Q.ble start_y e.y_position &&
    (match end_y with
     | none => true
     | some b => Q.blt e.y_position b)

/-- `_extract_page_text_for_section`. -/
def extract_page_text_for_section (page_data : Page) (start_y : Q) (end_y : Option Q) : String :=
  Py.joinSp ((((page_data.elements.filter (in_y_range start_y end_y)).map
    (fun e => Py.strip e.text)).filter (fun t => !(decide (t = emptyS)))))

/-- The page loop of `_extract_section_content`: skip pages before the
section start, break after the next heading's page, take the in-range text
of each page and keep the non-blank parts. -/
def section_content_loop (start_page : Nat) (start_y : Q) (next_heading : Option Heading) :
    List Page → List String
  | [] => []
  | pg :: rest =>
      if pg.page_number < start_page then section_content_loop start_page start_y next_heading rest
      else if (match next_heading with
               | some n => decide (n.page < pg.page_number)
               | none => false) then []
      else
        let endY : Option Q :=
          match next_heading with
          | some n => if pg.page_number = n.page then some n.y_position else none
          | none => none
        let page_content :=
          extract_page_text_for_section pg (if pg.page_number = start_page then start_y else q0) endY
        if Py.strip page_content = emptyS then
          section_content_loop start_page start_y next_heading rest
        else page_content :: section_content_loop start_page start_y next_heading rest

/-- The scan for the next heading of shallower-or-equal level inside
`_extract_section_content` (each candidate's level string is parsed with
`int`, which can raise). -/
def find_next_heading (current_level : Int) : List Heading → Except PyErr (Option Heading)
  | [] => pure none
  | h :: rest => do
      let heading_level ← levelIntE (h.level.getD "H1")
      if heading_level ≤ current_level then pure (some h)
      else find_next_heading current_level rest

/-- `_extract_section_content`. -/
def extract_section_content (current_heading : Heading) (remaining_headings : List Heading)
    (pages_data : List Page) : Except PyErr String := do
  let current_level ← levelIntE (current_heading.level.getD "H1")
  let next_heading ← find_next_heading current_level remaining_headings
  pure (Py.joinSp
    (section_content_loop current_heading.page current_heading.y_position next_heading pages_data))

/-- The heading loop of `_extract_document_sections` (each heading is
paired with the headings after it; blank-content sections are dropped). -/
def sections_of_headings (pages_data : List Page) : List Heading → Except PyErr (List SectionDict)
  | [] => pure []
  | h :: rest => do
      let section_content ← extract_section_content h rest pages_data
      let tl ← sections_of_headings pages_data rest
      pure
        (if Py.strip section_content = emptyS then tl
         else
           { section_title := h.text
             page_number := h.page
             content := section_content
             heading_level := h.level.getD "H1" } :: tl)

/-- The `"Page N"` synthetic title. -/
def pageWord : String := "Page "

def pageTitle (n : Nat) : String := ⟨pageWord.data ++ (natToStr n).data⟩

/-- `_extract_document_sections`: headed documents are segmented by
heading; heading-less documents fall back to one section per non-blank
page. -/
def extract_document_sections (doc_data : DocumentData) : Except PyErr (List SectionDict) :=
  if doc_data.headings.isEmpty then
    pure (doc_data.pages_data.enum.filterMap (fun ip =>
      let page_text := extract_page_text ip.2
      if Py.strip page_text = emptyS then none
      else
        some { section_title := pageTitle (ip.1 + 1)
               page_number := ip.1 + 1
               content := page_text
               heading_level := "H1" }))
  else sections_of_headings doc_data.pages_data doc_data.headings

/-- The per-document section scoring loop of `analyze_relevance`: keep a
section only when its relevance score exceeds 0.1, stamping score and
document name. -/
def score_sections (doc_name : String) (persona_kws job_kws : Finset String)
    (persona job_to_be_done : String) : List SectionDict → Except PyErr (List SectionDict)
  | [] => pure []
  | s :: rest => do
      let relevance_score ← calculate_relevance_score s persona_kws job_kws persona job_to_be_done
      let tl ← score_sections doc_name persona_kws job_kws persona job_to_be_done rest
      pure
        (if (qq 1 10).lt relevance_score then
          { s with relevance_score := some relevance_score, document := some doc_name } :: tl
         else tl)

/-- The document loop of `analyze_relevance`. -/
def analyze_docs_loop (persona_kws job_kws : Finset String) (persona job_to_be_done : String) :
    List DocumentData → Except PyErr (List SectionDict)
  | [] => pure []
  | d :: ds => do
      let doc_sections ← extract_document_sections d
      let scored ← score_sections d.file_name persona_kws job_kws persona job_to_be_done doc_sections
      let tl ← analyze_docs_loop persona_kws job_kws persona job_to_be_done ds
      pure (scored ++ tl)

/-- `analyze_relevance`: derive the keyword sets from the persona / job
inputs (raising `AttributeError` when they are plain strings, since the
source calls `.get` on them), score every section of every document, and
sort globally by relevance descending. -/
def analyze_relevance (documents_data : List DocumentData) (persona job_to_be_done : PyValue) :
    Except PyErr (List SectionDict) := do
  let persona_string := Py.lowerS (← persona.get roleKey emptyS)
  let job_string := Py.lowerS (← job_to_be_done.get taskKey emptyS)
  let persona_kws :=
    extract_keywords_from_text persona_string ∪ get_persona_specific_keywords persona_string
  let job_kws := extract_keywords_from_text job_string ∪ get_job_specific_keywords job_string
  let relevant ← analyze_docs_loop persona_kws job_kws persona_string job_string documents_data
  pure (relevant.mergeSort (fun a b =>
    Q.ble (b.relevance_score.getD q0) (a.relevance_score.getD q0)))

end RelevanceAnalyzer

/-! ### `section_extractor.py` -/

namespace SectionExtractor

/-- `persona_indicators` of `_has_persona_specific_content`. -/
def persona_indicators : List (String × List String) :=
  [("researcher", ["methodology", "experiment", "analysis", "results", "findings", "study",
      "research", "data", "statistical", "empirical"]),
   ("student", ["example", "exercise", "practice", "tutorial", "concept", "theory", "learn",
      "understand", "definition", "explanation"]),
   ("analyst", ["data", "metrics", "performance", "trends", "statistics", "insights", "report",
      "analysis", "comparison", "benchmark"]),
   ("engineer", ["implementation", "system", "design", "architecture", "technical",
      "specification", "development", "optimization", "scalability"]),
   ("manager", ["strategy", "planning", "management", "objectives", "goals", "resources",
      "team", "leadership", "decision", "business"]),
   ("salesperson", ["sales", "revenue", "customer", "market", "pricing", "product", "client",
      "growth", "competition", "opportunity"]),
   ("journalist", ["news", "report", "investigation", "facts", "source", "interview", "story",
      "coverage", "update", "event"]),
   ("entrepreneur", ["business", "startup", "innovation", "market", "opportunity", "investment",
      "growth", "strategy", "revenue", "customer"])]

/-- `job_indicators` of `_has_job_specific_content` (keys contain
spaces). -/
def job_indicators : List (String × List String) :=
  [("literature review", ["review", "survey", "comparison", "analysis", "methodology",
      "findings", "research", "studies", "approaches", "techniques", "evaluation",
      "benchmarks"]),
   ("exam preparation", ["key", "concepts", "important", "remember", "understand", "practice",
      "example", "problem", "solution", "theory", "principle", "formula", "definition"]),
   ("financial analysis", ["revenue", "profit", "cost", "expense", "financial", "performance",
      "growth", "investment", "return", "margin", "cash", "budget", "forecast"]),
   ("market analysis", ["market", "competition", "trends", "share", "size", "growth",
      "opportunity", "threat", "customer", "segment", "positioning", "strategy"]),
   ("technical implementation", ["implementation", "design", "architecture", "system",
      "technical", "specification", "requirements", "development", "coding", "testing"]),
   ("summary", ["summary", "overview", "key points", "highlights", "conclusion", "findings",
      "results", "insights"]),
   ("comparison", ["compare", "comparison", "versus", "difference", "similarity", "contrast",
      "alternative", "option", "choice", "evaluation", "assessment"])]

/-- `_has_persona_specific_content` (raises `AttributeError` on a string
persona, as the source's `persona.get('role', '')` does). -/
def has_persona_specific_content (sec : SectionDict) (persona : PyValue) :
    Except PyErr Bool := do
  let content := Py.lowerS sec.content
  let title := Py.lowerS sec.section_title
  let persona_string := Py.lowerS (← persona.get roleKey emptyS)
  let persona_lower := Py.lowerS persona_string
  pure (persona_indicators.any (fun kv =>
    Py.containsS persona_lower kv.1 &&
      kv.2.any (fun ind => Py.containsS content ind || Py.containsS title ind)))

/-- `_has_job_specific_content`. -/
def has_job_specific_content (sec : SectionDict) (job_to_be_done : PyValue) :
    Except PyErr Bool := do
  let content := Py.lowerS sec.content
  let title := Py.lowerS sec.section_title
  let job_string := Py.lowerS (← job_to_be_done.get taskKey emptyS)
  let job_lower := Py.lowerS job_string
  pure (job_indicators.any (fun kv =>
    Py.containsS job_lower kv.1 &&
      kv.2.any (fun ind => Py.containsS content ind || Py.containsS title ind)))

/-- The title-quality words of `_calculate_final_score`. -/
def title_quality_words : List String := ["introduction", "overview", "summary", "conclusion"]

/-- `_calculate_final_score`: relevance plus structural bonuses, capped at
1.0. -/
def calculate_final_score (sec : SectionDict) (persona job_to_be_done : PyValue) :
    Except PyErr Q := do
  let base_score := sec.relevance_score.getD q0
  let content_length := (Py.tokens sec.content).length
  let b1 :=
    if 50 ≤ content_length ∧ content_length ≤ 500 then qq 1 10
    else if 500 < content_length then qq 1 20
    else q0
  let level := sec.heading_level
  let level_num ←
    if Py.isPfx ['H'] level.data then RelevanceAnalyzer.levelIntE level else pure 3
  let b2 := if level_num ≤ 2 then qq 3 20 else if level_num = 3 then qq 1 20 else q0
  let title := Py.lowerS sec.section_title
  let b3 := if title_quality_words.any (fun w => Py.containsS title w) then qq 1 10 else q0
  let hp ← has_persona_specific_content sec persona
  let b4 := if hp then qq 1 10 else q0
  let hj ← has_job_specific_content sec job_to_be_done
  let b5 := if hj then qq 1 10 else q0
  pure (Q.pmin (base_score.add ((((b1.add b2).add b3).add b4).add b5)) (qI 1))

/-- The `ord` values of the bullet characters stripped by
`_clean_section_title`. -/
def isBullet (c : Char) : Bool := c = '•' || c = '●' || c = '○'

def untitledS : String := "Untitled Section"

/-- `re.sub(r'^\d+\.?\s*', '', s)`. -/
def numClean (s : String) : String :=
  match RegexPy.chomp1 Py.isDigit s.data with
  | some rest => ⟨(RegexPy.chompOpt '.' rest).dropWhile Py.isSpace⟩
  | none => s

/-- Strip one leading bullet (plus following whitespace). -/
def bulletClean (s : String) : String :=
  match s.data with
  | c :: rest => if isBullet c then ⟨rest.dropWhile Py.isSpace⟩ else s
  | [] => s

def isLowerAscii (c : Char) : Bool := 'a' ≤ c && c ≤ 'z'

/-- Capitalise the first letter when it is lowercase. -/
def capFirst (s : String) : String :=
  match s.data with
  | c :: rest => if isLowerAscii c then ⟨Char.ofNat (c.toNat - 32) :: rest⟩ else s
  | [] => s

/-- `_clean_section_title`. -/
def clean_section_title (title : String) : String :=
  if title = emptyS then untitledS
  else Py.strip (capFirst (bulletClean (numClean (Py.joinSp (Py.tokens title)))))

/-- The `min_relevance_score = 0.2` filter of `extract_sections`. -/
def filtered_sections (relevant_sections : List SectionDict) : List SectionDict :=
  relevant_sections.filter (fun s => Q.ble (qq 1 5) (s.relevance_score.getD q0))

/-- The final-score stamping loop of `extract_sections`. -/
def scored_sections_loop (persona job_to_be_done : PyValue) :
    List SectionDict → Except PyErr (List SectionDict)
  | [] => pure []
  | s :: rest => do
      let fs ← calculate_final_score s persona job_to_be_done
      let tl ← scored_sections_loop persona job_to_be_done rest
      pure ({ s with final_score := some fs } :: tl)

/-- The filtered sections with their final scores, in input order (the
state of `filtered_sections` just before the sort). -/
def scored_sections (relevant_sections : List SectionDict) (persona job_to_be_done : PyValue) :
    Except PyErr (List SectionDict) :=
  scored_sections_loop persona job_to_be_done (filtered_sections relevant_sections)

/-- The descending final-score order (stable, like Python's
`sort(reverse=True)`). -/
def final_score_le (a b : SectionDict) : Bool :=
  Q.ble (b.final_score.getD q0) (a.final_score.getD q0)

/-- `extract_sections`: filter at 0.2, score, sort descending, truncate to
20, then emit the top 5 with dense 1-based `importance_rank` and a cleaned
title.  (`documents_data` is passed but unused, as in the source.) -/
def extract_sections (documents_data : List DocumentData) (relevant_sections : List SectionDict)
    (persona job_to_be_done : PyValue) : Except PyErr (List ExtractedSection) := do
  let scored ← scored_sections relevant_sections persona job_to_be_done
  let sorted := scored.mergeSort final_score_le
  let top_sections := sorted.take 20
  pure ((top_sections.take 5).enum.map (fun is =>
    { document := is.2.document.getD emptyS
      page_number := is.2.page_number
      section_title := clean_section_title is.2.section_title
      importance_rank := is.1 + 1 }))

end SectionExtractor

/-! ### `subsection_analyzer.py` -/

/-- One subsection dict of `_extract_subsections`. -/
structure SubsectionDict where
  refined_text : String
  relevance_score : Q
  key_insights : List String
deriving DecidableEq

namespace SubSectionAnalyzer

/-- `self.sentence_endings = r'[.!?]'`. -/
def isSentEnd (c : Char) : Bool := c = '.' || c = '!' || c = '?'

/-- `_normalize_text`: `re.sub(r'\s+', ' ', text.lower().strip())`. -/
def normalize_text (text : String) : String :=
  ⟨Py.wsCollapse (Py.stripL (Py.lowerL text.data))⟩

/-- `_extract_page_text` (textually identical to the relevance analyzer's
helper). -/
def extract_page_text (page_data : Page) : String :=
  RelevanceAnalyzer.extract_page_text page_data

/-- The element loop of `_extract_section_content_by_heading` for one
page: skip elements at or above the heading on its own page, stop (inner
`break`) at the next heading's position, collect non-empty stripped
texts. -/
def elems_until (next_heading : Option Heading) (start_page : Nat) (start_y : Q)
    (page_num : Nat) : List Element → List String
  | [] => []
  | e :: rest =>
      if decide (page_num = start_page) && Q.ble e.y_position start_y then
        elems_until next_heading start_page start_y page_num rest
      else if (match next_heading with
               | some n => decide (page_num = n.page) && Q.ble n.y_position e.y_position
               | none => false) then []
      else
        let text := Py.strip e.text
        if text = emptyS then elems_until next_heading start_page start_y page_num rest
        else text :: elems_until next_heading start_page start_y page_num rest

/-- The page loop of `_extract_section_content_by_heading`. -/
def content_pages_loop (next_heading : Option Heading) (start_page : Nat) (start_y : Q) :
    List Page → List String
  | [] => []
  | pg :: rest =>
      if pg.page_number < start_page then content_pages_loop next_heading start_page start_y rest
      else if (match next_heading with
               | some n => decide (n.page < pg.page_number)
               | none => false) then []
      else
        elems_until next_heading start_page start_y pg.page_number pg.elements ++
          content_pages_loop next_heading start_page start_y rest

/-- The scan for the next same-or-shallower heading positioned after the
current one (levels of positioned-after candidates are parsed with
`int`). -/
def find_next_after (start_page : Nat) (start_y : Q) (current_level : Int) :
    List Heading → Except PyErr (Option Heading)
  | [] => pure none
  | h :: rest =>
      if start_page < h.page ∨ (h.page = start_page ∧ start_y.lt h.y_position) then do
        let heading_level ← RelevanceAnalyzer.levelIntE (h.level.getD "H1")
        if heading_level ≤ current_level then pure (some h)
        else find_next_after start_page start_y current_level rest
      else find_next_after start_page start_y current_level rest

/-- `_extract_section_content_by_heading`. -/
def extract_section_content_by_heading (current_heading : Heading)
    (all_headings : List Heading) (pages_data : List Page) : Except PyErr String := do
  let start_page := current_heading.page
  let start_y := current_heading.y_position
  let current_level ← RelevanceAnalyzer.levelIntE (current_heading.level.getD "H1")
  let next_heading ← find_next_after start_page start_y current_level all_headings
  pure (Py.joinSp (content_pages_loop next_heading start_page start_y pages_data))

/-- `_find_section_content`: match a heading by normalised title and page,
else fall back to the whole page's text, else the empty string. -/
def find_section_content (doc_data : DocumentData) (section_title : String)
    (page_number : Nat) : Except PyErr String := do
  let target_heading := doc_data.headings.find? (fun h =>
    decide (normalize_text h.text = normalize_text section_title) && decide (h.page = page_number))
  match target_heading with
  | none =>
      match doc_data.pages_data.find? (fun pg => decide (pg.page_number = page_number)) with
      | some pg => pure (extract_page_text pg)
      | none => pure emptyS
  | some target => extract_section_content_by_heading target doc_data.headings doc_data.pages_data

/-- The paragraph splitter `re.split(r'\n\s*\n', content)`; fuel-based so
that the leftmost-match scan reduces (each match consumes at least two
characters). -/
def lastNewlineIdx (l : Py.Chars) : Option Nat :=
  l.enum.foldl (fun acc ic => if ic.2 = '\n' then some ic.1 else acc) none

def splitParaAux : Nat → Py.Chars → List Py.Chars
  | _, [] => [[]]
  | 0, cs => [cs]
  | fuel + 1, c :: rest =>
      if c = '\n' then
        match lastNewlineIdx (rest.takeWhile Py.isSpace) with
        | some j =>
            let run := rest.takeWhile Py.isSpace
            [] :: splitParaAux fuel (run.drop (j + 1) ++ rest.drop run.length)
        | none =>
            match splitParaAux fuel rest with
            | [] => [[c]]
            | piece :: pieces => (c :: piece) :: pieces
      else
        match splitParaAux fuel rest with
        | [] => [[c]]
        | piece :: pieces => (c :: piece) :: pieces

/-- `_split_into_paragraphs`: blank-line split, stripped, at least 10
words. -/
def split_into_paragraphs (content : String) : List String :=
  ((splitParaAux content.data.length content.data).map (fun l => (⟨Py.stripL l⟩ : String))).filter
    (fun p => !(decide (p = emptyS)) && decide (10 ≤ (Py.tokens p).length))

/-- `_split_into_sentences`: split at sentence punctuation, stripped, at
least 5 words. -/
def split_into_sentences (content : String) : List String :=
  ((Py.splitAnyChar isSentEnd content.data).map (fun l => (⟨Py.stripL l⟩ : String))).filter
    (fun s => !(decide (s = emptyS)) && decide (5 ≤ (Py.tokens s).length))

def isBulletSub (c : Char) : Bool := c = '•' || c = '●' || c = '○'

/-- `re.sub(r'^\s*[•●○]\s*', '', s)`. -/
def bulletCleanWs (s : String) : String :=
  let a := s.data.dropWhile Py.isSpace
  match a with
  | c :: rest => if isBulletSub c then ⟨rest.dropWhile Py.isSpace⟩ else s
  | [] => s

def endsSentencePunct (s : String) : Bool :=
  match s.data.getLast? with
  | some c => c = '.' || c = '!' || c = '?' || c = ':'
  | none => false

/-- `_refine_text`: whitespace cleanup, bullet strip, forced terminal
punctuation, final strip. -/
def refine_text (text : String) : String :=
  let t1 := Py.joinSp (Py.tokens text)
  let t2 : String := ⟨Py.wsCollapse t1.data⟩
  let t3 := bulletCleanWs t2
  let t4 : String :=
    if !(decide (t3 = emptyS)) && !(endsSentencePunct t3) then ⟨t3.data ++ ['.']⟩ else t3
  Py.strip t4

/-- The stop-word set of the subsection analyzer's `_extract_keywords`
(smaller than the relevance analyzer's). -/
def sub_stop_words : List String :=
  ["the", "a", "an", "and", "or", "but", "in", "on", "at", "to", "for",
   "of", "with", "by", "is", "are", "was", "were", "be", "been", "have",
   "has", "had", "do", "does", "did", "will", "would", "could", "should"]

/-- `_extract_keywords` (single words only). -/
def extract_keywords (text : String) : Finset String :=
  (((Py.wordRuns (Py.lowerS text).data).map String.mk).filter
    (fun w => decide (2 < Py.lenS w) && !(sub_stop_words.contains w))).toFinset

/-- `_calculate_subsection_relevance` (raises `AttributeError` on string
persona / job inputs, like the source's `.get` calls). -/
def calculate_subsection_relevance (text : String) (persona job_to_be_done : PyValue) :
    Except PyErr Q := do
  let text_lower := Py.lowerS text
  let persona_string := Py.lowerS (← persona.get roleKey emptyS)
  let job_string := Py.lowerS (← job_to_be_done.get taskKey emptyS)
  let job_lower := Py.lowerS job_string
  let persona_kws := extract_keywords persona_string
  let job_kws := extract_keywords job_lower
  let text_words := ((Py.wordRuns text_lower.data).map String.mk).toFinset
  let persona_matches := (persona_kws ∩ text_words).card
  let job_matches := (job_kws ∩ text_words).card
  let s1 :=
    if 0 < text_words.card then
      (((qI persona_matches).div (qI text_words.card)).mul (qq 2 5)).add
        (((qI job_matches).div (qI text_words.card)).mul (qq 3 5))
    else q0
  let s2 := (qI (RelevanceAnalyzer.countWhere persona_kws
    (fun kw => decide (1 < (Py.tokens kw).length) && Py.containsS text_lower kw))).mul (qq 1 10)
  let s3 := (qI (RelevanceAnalyzer.countWhere job_kws
    (fun kw => decide (1 < (Py.tokens kw).length) && Py.containsS text_lower kw))).mul (qq 3 20)
  pure (Q.pmin ((s1.add s2).add s3) (qI 1))

def insight_indicators : List String :=
  ["important", "key", "significant", "critical", "essential", "main",
   "primary", "fundamental", "crucial", "major", "notable", "remarkable"]

def result_terms : List String := ["result", "finding", "conclusion", "shows", "indicates"]

/-- `_extract_key_insights` (the persona / job parameters are accepted but
unused, as in the source). -/
def extract_key_insights (text : String) (persona job_to_be_done : PyValue) : List String :=
  let sentences := (Py.splitAnyChar isSentEnd text.data).map (fun l => (⟨Py.stripL l⟩ : String))
  let primary := sentences.filterMap (fun s =>
    if decide (8 ≤ (Py.tokens s).length) &&
        insight_indicators.any (fun ind => Py.containsS (Py.lowerS s) ind) then
      some (⟨s.data ++ ['.']⟩ : String)
    else none)
  let insights :=
    if primary.isEmpty then
      sentences.filterMap (fun s =>
        if decide (8 ≤ (Py.tokens s).length) &&
            (s.data.any Py.isDigit ||
              result_terms.any (fun t => Py.containsS (Py.lowerS s) t)) then
          some (⟨s.data ++ ['.']⟩ : String)
        else none)
    else primary
  insights.take 3

/-- The paragraph branch of `_extract_subsections`. -/
def paragraphs_loop (persona job_to_be_done : PyValue) :
    List String → Except PyErr (List SubsectionDict)
  | [] => pure []
  | p :: rest =>
      if 30 ≤ (Py.tokens p).length then do
        let refined_text := refine_text p
        let relevance_score ← calculate_subsection_relevance refined_text persona job_to_be_done
        let key_insights := extract_key_insights refined_text persona job_to_be_done
        let tl ← paragraphs_loop persona job_to_be_done rest
        pure
          (if (qq 3 10).lt relevance_score then
            { refined_text := refined_text, relevance_score := relevance_score,
              key_insights := key_insights } :: tl
           else tl)
      else paragraphs_loop persona job_to_be_done rest

/-- The sentence-accumulation fallback branch of `_extract_subsections`. -/
def sentences_loop (persona job_to_be_done : PyValue) (current : List String) :
    List String → Except PyErr (List SubsectionDict)
  | [] => pure []
  | s :: rest =>
      let current' := current ++ [s]
      if 30 ≤ (Py.tokens (Py.joinSp current')).length then do
        let refined_text := refine_text (Py.joinSp current')
        let relevance_score ← calculate_subsection_relevance refined_text persona job_to_be_done
        let tl ← sentences_loop persona job_to_be_done [] rest
        pure
          (if (qq 3 10).lt relevance_score then
            { refined_text := refined_text, relevance_score := relevance_score,
              key_insights := extract_key_insights refined_text persona job_to_be_done } :: tl
           else tl)
      else sentences_loop persona job_to_be_done current' rest

/-- `_extract_subsections`: paragraph analysis with a sentence-based
fallback, 0.3 relevance gate, top 5 by score. -/
def extract_subsections (content : String) (persona job_to_be_done : PyValue) :
    Except PyErr (List SubsectionDict) := do
  if content = emptyS ∨ (Py.tokens content).length < 30 then pure []
  else do
    let paragraphs := split_into_paragraphs content
    let para_subs ← paragraphs_loop persona job_to_be_done paragraphs
    let subsections ←
      if para_subs.isEmpty then
        sentences_loop persona job_to_be_done [] (split_into_sentences content)
      else pure para_subs
    pure ((subsections.mergeSort (fun a b => Q.ble b.relevance_score a.relevance_score)).take 5)

/-- Python dict-comprehension lookup `{doc['file_name']: doc for doc in
documents_data}` (the last binding wins). -/
def doc_lookup (documents_data : List DocumentData) (name : String) : Option DocumentData :=
  documents_data.foldl (fun acc d => if d.file_name = name then some d else acc) none

/-- The section loop of `analyze_subsections`. -/
def analyze_sections_loop (documents_data : List DocumentData) (persona job_to_be_done : PyValue) :
    List ExtractedSection → Except PyErr (List SubsectionRecord)
  | [] => pure []
  | s :: rest =>
      match doc_lookup documents_data s.document with
      | none => analyze_sections_loop documents_data persona job_to_be_done rest
      | some doc => do
          let section_content ← find_section_content doc s.section_title s.page_number
          if section_content = emptyS then
            analyze_sections_loop documents_data persona job_to_be_done rest
          else do
            let subsections ← extract_subsections section_content persona job_to_be_done
            let tl ← analyze_sections_loop documents_data persona job_to_be_done rest
            pure ((subsections.map (fun sub =>
              { document := s.document
                section_title := s.section_title
                refined_text := sub.refined_text
                page_number := s.page_number
                relevance_score := sub.relevance_score
                key_insights := sub.key_insights })) ++ tl)

/-- `analyze_subsections`: analyse each extracted section's full content,
then sort all records by relevance descending. -/
def analyze_subsections (extracted_sections : List ExtractedSection)
    (documents_data : List DocumentData) (persona job_to_be_done : PyValue) :
    Except PyErr (List SubsectionRecord) := do
  let subsection_analyses ←
    analyze_sections_loop documents_data persona job_to_be_done extracted_sections
  pure (subsection_analyses.mergeSort (fun a b => Q.ble b.relevance_score a.relevance_score))

end SubSectionAnalyzer

/-! ### `document_intelligence.py`

The PDF byte-stream parser (`pdf_parser.py`, built on the external `fitz`
library) is out of the core's scope; its per-file outcome is an input
here: each entry of `pdf_files` carries the file path and the page list
`parse_pdf` produced for it (the empty list models a failed parse, which
is exactly the condition `_parse_single_document` turns into `None`). -/

namespace DocumentIntelligenceService

/-- `Path(p).name`. -/
def pathName (p : String) : String :=
  ⟨p.data.foldl (fun acc c => if c = '/' then [] else acc ++ [c]) []⟩

/-- The skip regexes of `_extract_document_title`. -/
def title_skip (text : String) : Bool :=
  let lowered := (Py.lowerS text).data
  RegexPy.mDigitsOnly lowered || RegexPy.mPageNum lowered || RegexPy.mDate lowered

def title_skip_words : List String := ["copyright", "version", "draft", "confidential"]

/-- The candidate scan of `_extract_document_title`. -/
def title_scan : List Element → String
  | [] => emptyS
  | e :: rest =>
      let text := Py.strip e.text
      if Py.lenS text < 5 then title_scan rest
      else if title_skip text then title_scan rest
      else if title_skip_words.any (fun w => Py.containsS (Py.lowerS text) w) then title_scan rest
      else if (10 < Py.lenS text ∧ ((qI 14).lt e.font_size ∨ e.is_bold)) ∨ 20 < Py.lenS text then
        text
      else title_scan rest

/-- The `(y_position, x_position)` sort key of `_extract_document_title`. -/
def title_sort_le (a b : Element) : Bool :=
  Q.blt a.y_position b.y_position ||
    (decide (a.y_position = b.y_position) && Q.ble a.x_position b.x_position)

/-- `_extract_document_title`: first acceptable candidate among the top 15
elements of the first page. -/
def extract_document_title (pages_data : List Page) : String :=
  match pages_data with
  | [] => emptyS
  | first_page :: _ =>
      title_scan ((first_page.elements.mergeSort title_sort_le).take 15)

/-- `_parse_single_document`: `None` exactly when the parser produced no
pages; otherwise element analysis, heading detection and false-positive
filtering, and title extraction. -/
def parse_single_document (stdev : List Q → Q) (pdf_file : String × List Page) :
    Option DocumentData :=
  let pages_data := pdf_file.2
  if pages_data.isEmpty then none
  else
    let analyzed_elements := TextAnalyzer.analyze_elements stdev pages_data
    let headings :=
      HeadingDetector.filter_false_positives (HeadingDetector.detect_headings analyzed_elements)
    some
      { file_path := pdf_file.1
        file_name := pathName pdf_file.1
        title := extract_document_title pages_data
        pages_data := pages_data
        headings := headings
        analyzed_elements := analyzed_elements }

/-- `_build_result`. -/
def build_result (pdf_files : List (String × List Page)) (persona job_to_be_done : PyValue)
    (extracted_sections : List ExtractedSection) (subsection_analysis : List SubsectionRecord)
    (timestamp : String) : ResultD :=
  { metadata :=
      { input_documents := pdf_files.map (fun f => pathName f.1)
        persona := persona
        job_to_be_done := job_to_be_done
        processing_timestamp := timestamp }
    extracted_sections := extracted_sections
    subsection_analysis := subsection_analysis }

/-- `_create_empty_result`. -/
def create_empty_result (pdf_files : List (String × List Page)) (persona job_to_be_done : PyValue)
    (timestamp : String) : ResultD :=
  { metadata :=
      { input_documents := pdf_files.map (fun f => pathName f.1)
        persona := persona
        job_to_be_done := job_to_be_done
        processing_timestamp := timestamp }
    extracted_sections := []
    subsection_analysis := [] }

/-- Steps 2-4 of `process_document_collection` (the part guarded by the
outer `try`): relevance analysis, section extraction, subsection
analysis. -/
def process_body (documents_data : List DocumentData) (persona job_to_be_done : PyValue) :
    Except PyErr (List ExtractedSection × List SubsectionRecord) := do
  let relevant_sections ← RelevanceAnalyzer.analyze_relevance documents_data persona job_to_be_done
  let extracted_sections ←
    SectionExtractor.extract_sections documents_data relevant_sections persona job_to_be_done
  let subsection_analysis ←
    SubSectionAnalyzer.analyze_subsections extracted_sections documents_data persona job_to_be_done
  pure (extracted_sections, subsection_analysis)

/-- `process_document_collection`: parse every file, fall back to the
empty result when nothing parses, and catch any exception from the
analysis stages with the empty result (the source's `except Exception`). -/
def process_document_collection (stdev : List Q → Q) (pdf_files : List (String × List Page))
    (persona job_to_be_done : PyValue) (timestamp : String) : ResultD :=
  let documents_data := pdf_files.filterMap (parse_single_document stdev)
  if documents_data.isEmpty then create_empty_result pdf_files persona job_to_be_done timestamp
  else
    match process_body documents_data persona job_to_be_done with
    | Except.ok r => build_result pdf_files persona job_to_be_done r.1 r.2 timestamp
    | Except.error _ => create_empty_result pdf_files persona job_to_be_done timestamp

end DocumentIntelligenceService

/-! ### Contributing-element spans of the segmenter

`_extract_section_content` builds each section's content string by
appending the stripped text of selected elements; the definitions below
run the same traversal (same skip / break / range / blank-part tests) but
collect the `(page_number, element)` occurrences whose text is appended
instead of the joined string.  They are the formal reading of "the set of
elements whose text contributes to the section's content". -/

namespace SectionSpans

/-- The elements of one page whose stripped text enters the page's part
(the range filter of `_extract_page_text_for_section` plus the `if text:`
guard), tagged with the page number. -/
def page_slice (page_data : Page) (start_y : Q) (end_y : Option Q) : List (Nat × Element) :=
  ((page_data.elements.filter (RelevanceAnalyzer.in_y_range start_y end_y)).filter
    (fun e => !(decide (Py.strip e.text = emptyS)))).map (fun e => (page_data.page_number, e))

/-- The page loop of `_extract_section_content`, collecting slices; the
branch tests are literally those of
`RelevanceAnalyzer.section_content_loop`. -/
def span_pages_loop (start_page : Nat) (start_y : Q) (next_heading : Option Heading) :
    List Page → List (List (Nat × Element))
  | [] => []
  | pg :: rest =>
      if pg.page_number < start_page then span_pages_loop start_page start_y next_heading rest
      else if (match next_heading with
               | some n => decide (n.page < pg.page_number)
               | none => false) then []
      else
        let sy := if pg.page_number = start_page then start_y else q0
        let endY : Option Q :=
          match next_heading with
          | some n => if pg.page_number = n.page then some n.y_position else none
          | none => none
        if Py.strip (RelevanceAnalyzer.extract_page_text_for_section pg sy endY) = emptyS then
          span_pages_loop start_page start_y next_heading rest
        else page_slice pg sy endY :: span_pages_loop start_page start_y next_heading rest

/-- The contributing occurrences of one section. -/
def section_span (current_heading : Heading) (remaining_headings : List Heading)
    (pages_data : List Page) : Except PyErr (List (Nat × Element)) := do
  let current_level ← RelevanceAnalyzer.levelIntE (current_heading.level.getD "H1")
  let next_heading ← RelevanceAnalyzer.find_next_heading current_level remaining_headings
  pure ((span_pages_loop current_heading.page current_heading.y_position next_heading
    pages_data).flatten)

/-- The heading loop, dropping a section exactly when
`RelevanceAnalyzer.sections_of_headings` drops it (blank content). -/
def spans_of_headings (pages_data : List Page) :
    List Heading → Except PyErr (List (List (Nat × Element)))
  | [] => pure []
  | h :: rest => do
      let section_content ← RelevanceAnalyzer.extract_section_content h rest pages_data
      let sp ← section_span h rest pages_data
      let tl ← spans_of_headings pages_data rest
      pure (if Py.strip section_content = emptyS then tl else sp :: tl)

/-- Per-document contributing spans, one list per produced section (the
heading-less branch mirrors the per-page fallback sections). -/
def document_section_spans (doc_data : DocumentData) :
    Except PyErr (List (List (Nat × Element))) :=
  if doc_data.headings.isEmpty then
    pure (doc_data.pages_data.enum.filterMap (fun ip =>
      let page_text := RelevanceAnalyzer.extract_page_text ip.2
      if Py.strip page_text = emptyS then none
      else
        some ((ip.2.elements.filter (fun e => !(decide (Py.strip e.text = emptyS)))).map
          (fun e => (ip.2.page_number, e)))))
  else spans_of_headings doc_data.pages_data doc_data.headings

/-- Lexicographic order on `(page, y)` positions. -/
def lexLe (a b : Nat × Q) : Prop := a.1 < b.1 ∨ (a.1 = b.1 ∧ a.2.le b.2)

def lexLt (a b : Nat × Q) : Prop := a.1 < b.1 ∨ (a.1 = b.1 ∧ a.2.lt b.2)

instance (a b : Nat × Q) : Decidable (lexLe a b) := by
  unfold lexLe; infer_instance

instance (a b : Nat × Q) : Decidable (lexLt a b) := by
  unfold lexLt; infer_instance

def headingStart (h : Heading) : Nat × Q := (h.page, h.y_position)

def elemPos (pe : Nat × Element) : Nat × Q := (pe.1, pe.2.y_position)

end SectionSpans

/-! ### Concrete inputs used by the counterexamples and witnesses -/

/-- A plain element template. -/
def baseElem : Element :=
  { text := ""
    page := 1
    bbox := (q0, q0, q0, q0)
    font_size := qI 12
    is_bold := false
    is_caps := false
    x_position := q0
    y_position := q0
    heading_score := none }

/-- A plain heading template (fields the segmenter reads: text, page,
`y_position`, level). -/
def baseHeading : Heading :=
  { text := ""
    page := 1
    font_size := qI 12
    is_bold := false
    bbox := (q0, q0, q0, q0)
    y_position := q0
    x_position := q0
    detection_method := "score"
    confidence := qI 1
    level := some "H1" }

/-- C3: one element that both the score strategy (heading score 2) and the
pattern strategy (text `1. Introduction`) turn into a candidate. -/
def c3elem : Element :=
  { baseElem with text := "1. Introduction", heading_score := some (qI 2) }

def c3score : List Heading := HeadingDetector.detect_by_score [c3elem]

def c3pattern : List Heading := HeadingDetector.detect_by_patterns [c3elem]

def c3font : List Heading := HeadingDetector.detect_by_font_clustering [c3elem]

/-- C9: a font-size group of three raw elements of which only one survives
the per-element candidate filters (the other two are bare numbers). -/
def c9elems : List Element :=
  [{ baseElem with text := "123", font_size := qI 17 },
   { baseElem with text := "456", font_size := qI 17, y_position := qI 10 },
   { baseElem with text := "hello world", font_size := qI 17, y_position := qI 20 }]

/-- C9 witness: one size group with exactly two surviving candidates. -/
def c9welems : List Element :=
  [{ baseElem with text := "alpha beta", font_size := qI 17 },
   { baseElem with text := "gamma delta", font_size := qI 17, y_position := qI 10 }]

/-- C10 witness: three singleton size groups above a fourth-largest group
with two surviving candidates; no element reaches the score threshold or
matches a numbering pattern, so the pair is detected by font clustering
alone. -/
def c10elems : List Element :=
  [{ baseElem with text := "Alpha heading one", font_size := qI 20, heading_score := some q0 },
   { baseElem with text := "Beta heading two", font_size := qI 19, y_position := qI 10, heading_score := some q0 },
   { baseElem with text := "Gamma heading three", font_size := qI 18, y_position := qI 20, heading_score := some q0 },
   { baseElem with text := "Delta subheading", font_size := qI 17, y_position := qI 30, heading_score := some q0 },
   { baseElem with text := "Epsilon subheading", font_size := qI 17, y_position := qI 40, heading_score := some q0 }]

/-- The heading the font-clustering strategy alone produces for
`Delta subheading` (fourth-largest size group, confidence 0.25). -/
def c10h : Heading :=
  { text := "Delta subheading"
    page := 1
    font_size := qI 17
    is_bold := false
    bbox := (q0, q0, q0, q0)
    y_position := qI 30
    x_position := q0
    detection_method := "font_cluster"
    confidence := qq 1 4
    pattern_level := none
    font_level := some 4
    detection_methods := some ["font_cluster"]
    level := some "H1" }

/-- The same element stream with the fourth-largest size group holding two
elements of identical text: both font-cluster candidates share the merge
key, so fusion boosts the first by +0.2. -/
def c10pelems : List Element :=
  [{ baseElem with text := "Alpha heading one", font_size := qI 20, heading_score := some q0 },
   { baseElem with text := "Beta heading two", font_size := qI 19, y_position := qI 10, heading_score := some q0 },
   { baseElem with text := "Gamma heading three", font_size := qI 18, y_position := qI 20, heading_score := some q0 },
   { baseElem with text := "Delta subheading", font_size := qI 17, y_position := qI 30, heading_score := some q0 },
   { baseElem with text := "Delta subheading", font_size := qI 17, y_position := qI 40, heading_score := some q0 }]

/-- The heading the pipeline produces for that pair: fused from two
fourth-group font-cluster votes, confidence 0.25 + 0.2 = 0.45. -/
def c10ph : Heading :=
  { text := "Delta subheading"
    page := 1
    font_size := qI 17
    is_bold := false
    bbox := (q0, q0, q0, q0)
    y_position := qI 30
    x_position := q0
    detection_method := "font_cluster"
    confidence := qq 9 20
    pattern_level := none
    font_level := some 4
    detection_methods := some ["font_cluster", "font_cluster"]
    level := some "H1" }

/-- C2 counterexample: an H1 heading followed by an H2 heading on the same
page, with a body element after both. -/
def c2eX : Element := { baseElem with text := "Intro" }

def c2eY : Element := { baseElem with text := "Sub", y_position := qI 10 }

def c2eZ : Element := { baseElem with text := "Body text here", y_position := qI 20 }

def c2hX : Heading := { baseHeading with text := "Intro", level := some "H1" }

def c2hY : Heading :=
  { baseHeading with text := "Sub", y_position := qI 10, level := some "H2" }

def c2doc : DocumentData :=
  { file_path := "d.pdf"
    file_name := "d.pdf"
    title := ""
    pages_data := [{ page_number := 1, elements := [c2eX, c2eY, c2eZ] }]
    headings := [c2hX, c2hY]
    analyzed_elements := [] }

/-- C2 witness: the same document shape but with equal-level headings. -/
def c2whA : Heading := { baseHeading with text := "Intro", level := some "H1" }

def c2whB : Heading :=
  { baseHeading with text := "Next part", y_position := qI 10, level := some "H1" }

def c2wdoc : DocumentData :=
  { file_path := "d.pdf"
    file_name := "d.pdf"
    title := ""
    pages_data := [{ page_number := 1, elements := [c2eX, c2eY, c2eZ] }]
    headings := [c2whA, c2whB]
    analyzed_elements := [] }

/-- The `statistics.stdev` oracle instantiated trivially for runs whose
outcome does not depend on it. -/
def stdev0 : List Q → Q := fun _ => q0

/-- C6 witness / C7 counterexample inputs: a single file whose parse
produced no pages. -/
def c6files : List (String × List Page) := [("bad.pdf", [])]

def personaStr : PyValue := PyValue.str "PhD Researcher in Computational Biology"

def jobStr : PyValue := PyValue.str "Prepare a literature review"

def personaDict : PyValue := PyValue.dict [("role", "researcher")]

def jobDict : PyValue := PyValue.dict [("task", "literature review")]

def ts1 : String := "2025-01-01T00:00:00"

def ts2 : String := "2025-01-01T00:00:01"

/-- C4 witness: one relevance-scored section. -/
def c4sec : SectionDict :=
  { section_title := "Introduction"
    page_number := 1
    content := "research methodology findings and more words here"
    heading_level := "H1"
    relevance_score := some (qq 1 2)
    document := some "doc.pdf"
    final_score := none }

def c4scored : SectionDict := { c4sec with final_score := some (qq 19 20) }

/-- C5 counterexample text. -/
def c5text : String := "1. Introduction"

/-! ## Lemmas and theorems

### Transfer lemmas for `Q` -/

theorem Q.den_cast_pos (a : Q) : (0 : ℚ) < (a.den : ℚ) := by exact_mod_cast a.den_pos

theorem Q.toRat_norm (n : Int) (d : Nat) (h : 0 < d) :
    (Q.norm n d h).toRat = (n : ℚ) / (d : ℚ) := by
  unfold Q.norm Q.toRat
  simp only []
  set g := Nat.gcd n.natAbs d with hg
  have hg0 : 0 < g := Nat.gcd_pos_of_pos_right _ h
  have hgq : ((g : Int) : ℚ) ≠ 0 := by exact_mod_cast hg0.ne'
  have hdvd_n : (g : Int) ∣ n := by
    have h1 : ((n.natAbs : Int)) ∣ n := Int.natAbs_dvd.mpr dvd_rfl
    exact dvd_trans (Int.natCast_dvd_natCast.mpr (Nat.gcd_dvd_left _ _)) h1
  have e1 : ((n / (g : Int) : Int) : ℚ) * ((g : Int) : ℚ) = (n : ℚ) := by
    have := Int.ediv_mul_cancel hdvd_n
    exact_mod_cast congrArg (fun z : Int => (z : ℚ)) this
  have e2 : ((d / g : Nat) : ℚ) * ((g : Int) : ℚ) = (d : ℚ) := by
    have h2 := Nat.div_mul_cancel (Nat.gcd_dvd_right n.natAbs d)
    rw [← hg] at h2
    push_cast
    exact_mod_cast h2
  rw [← e1, ← e2, mul_div_mul_right _ _ hgq]

theorem Q.toRat_q0 : q0.toRat = 0 := by
  unfold Q.toRat q0; norm_num

theorem Q.toRat_qI (n : Int) : (qI n).toRat = (n : ℚ) := by
  unfold Q.toRat qI; norm_num

theorem Q.toRat_qq (n : Int) (d : Nat) (h : 0 < d) : (qq n d).toRat = (n : ℚ) / (d : ℚ) := by
  unfold qq
  rw [dif_pos h, Q.toRat_norm]

theorem Q.toRat_add (a b : Q) : (a.add b).toRat = a.toRat + b.toRat := by
  unfold Q.add
  rw [Q.toRat_norm]
  unfold Q.toRat
  have ha := a.den_cast_pos.ne'
  have hb := b.den_cast_pos.ne'
  field_simp

theorem Q.toRat_neg (a : Q) : a.neg.toRat = -a.toRat := by
  unfold Q.neg Q.toRat
  push_cast
  ring

theorem Q.toRat_sub (a b : Q) : (a.sub b).toRat = a.toRat - b.toRat := by
  unfold Q.sub
  rw [Q.toRat_add, Q.toRat_neg]
  ring

theorem Q.toRat_mul (a b : Q) : (a.mul b).toRat = a.toRat * b.toRat := by
  unfold Q.mul
  rw [Q.toRat_norm]
  unfold Q.toRat
  have ha := a.den_cast_pos.ne'
  have hb := b.den_cast_pos.ne'
  field_simp

theorem Q.toRat_div (a b : Q) : (a.div b).toRat = a.toRat / b.toRat := by
  unfold Q.div
  by_cases hb : b.num = 0
  · rw [dif_pos hb, Q.toRat_q0]
    have : b.toRat = 0 := by unfold Q.toRat; rw [hb]; norm_num
    rw [this, div_zero]
  · rw [dif_neg hb, Q.toRat_norm]
    unfold Q.toRat
    have ha := a.den_cast_pos.ne'
    have hbd := b.den_cast_pos.ne'
    have hbq : (b.num : ℚ) ≠ 0 := by exact_mod_cast hb
    rcases lt_or_gt_of_ne hb with hneg | hpos
    · have hs : Int.sign b.num = -1 := Int.sign_eq_neg_one_of_neg hneg
      have habs : ((b.num.natAbs : Nat) : ℚ) = -(b.num : ℚ) := by
        rw [Int.cast_natAbs, abs_of_neg hneg]
        push_cast
        ring
      rw [hs]
      push_cast [habs]
      field_simp
    · have hs : Int.sign b.num = 1 := Int.sign_eq_one_of_pos hpos
      have habs : ((b.num.natAbs : Nat) : ℚ) = (b.num : ℚ) := by
        rw [Int.cast_natAbs, abs_of_pos hpos]
      rw [hs]
      push_cast [habs]
      field_simp

theorem Q.le_iff (a b : Q) : a.le b ↔ a.toRat ≤ b.toRat := by
  unfold Q.le Q.toRat
  rw [div_le_div_iff a.den_cast_pos b.den_cast_pos]
  exact_mod_cast Iff.rfl

theorem Q.lt_iff (a b : Q) : a.lt b ↔ a.toRat < b.toRat := by
  unfold Q.lt Q.toRat
  rw [div_lt_div_iff a.den_cast_pos b.den_cast_pos]
  exact_mod_cast Iff.rfl

theorem Q.toRat_pmin (a b : Q) : (a.pmin b).toRat = min a.toRat b.toRat := by
  unfold Q.pmin
  by_cases h : b.lt a
  · rw [if_pos h, min_eq_right ((Q.lt_iff b a).mp h).le]
  · rw [if_neg h, min_eq_left (le_of_not_lt (fun hlt => h ((Q.lt_iff b a).mpr hlt)))]

theorem Q.toRat_pmax (a b : Q) : (a.pmax b).toRat = max a.toRat b.toRat := by
  unfold Q.pmax
  by_cases h : a.lt b
  · rw [if_pos h, max_eq_right ((Q.lt_iff a b).mp h).le]
  · rw [if_neg h, max_eq_left (le_of_not_lt (fun hlt => h ((Q.lt_iff a b).mpr hlt)))]

theorem Q.ble_iff (a b : Q) : a.ble b = true ↔ a.toRat ≤ b.toRat := by
  unfold Q.ble
  rw [decide_eq_true_iff]
  exact Q.le_iff a b

theorem Q.blt_iff (a b : Q) : a.blt b = true ↔ a.toRat < b.toRat := by
  unfold Q.blt
  rw [decide_eq_true_iff]
  exact Q.lt_iff a b

/-! ### C8: the heading score is clamped at zero -/

/-- C8: for every element and every triple of document-wide font
statistics, the heading score assigned by `_analyze_single_element` is
non-negative — the `max(0, score)` floor holds regardless of how large the
-2.0 exclusion penalty is relative to the accumulated bonuses. -/
theorem c8_heading_score_nonneg (element : Element) (avg_font median_font font_std : Q) :
    ∃ s, (TextAnalyzer.analyze_single_element element avg_font median_font font_std).heading_score
        = some s ∧ 0 ≤ s.toRat := by
  refine ⟨_, rfl, ?_⟩
  rw [Q.toRat_pmax, Q.toRat_q0]
  exact le_max_left 0 _

/-! ### C5: the text-pattern bonus range -/

theorem bind_isSome {α β : Type} {o : Option α} {f : α → Option β}
    (h : (o.bind f).isSome = true) : o.isSome = true := by
  cases o with
  | none => simp [Option.bind] at h
  | some v => rfl

theorem mNumDotNum_imp_mNumDot (cs : Py.Chars) :
    RegexPy.mNumDotNum cs = true → RegexPy.mNumDot cs = true := by
  intro h
  unfold RegexPy.mNumDotNum at h
  unfold RegexPy.mNumDot
  exact bind_isSome h

theorem mHeading3_imp_mNumDotNum (cs : Py.Chars) :
    RegexPy.mHeading3 cs = true → RegexPy.mNumDotNum cs = true := by
  intro h
  unfold RegexPy.mHeading3 at h
  unfold RegexPy.mNumDotNum
  exact bind_isSome (bind_isSome h)

/-- C5 counterexample: on the text `1. Introduction` the pattern bonus is
2.5 — both the heading-pattern list (+1.5) and the `^\d+\.` numbering
check (+1.0) fire — which exceeds the claimed ceiling of 1.5. -/
theorem c5_counterexample :
    TextAnalyzer.analyze_text_patterns c5text = qq 5 2 ∧
    ¬ (TextAnalyzer.analyze_text_patterns c5text).le (qq 3 2) := by
  constructor
  · decide
  · decide

/-- C5 (amended): for every input text the numbering/keyword text-pattern
bonus of `_analyze_text_patterns` lies in the closed interval [0, 2.5]
(the 1.2 branch of the `elif` chain is unreachable because `^\d+\.\d+`
implies `^\d+\.`). -/
theorem c5_amended_pattern_bonus_range (text : String) :
    0 ≤ (TextAnalyzer.analyze_text_patterns text).toRat ∧
      (TextAnalyzer.analyze_text_patterns text).toRat ≤ 5 / 2 := by
  unfold TextAnalyzer.analyze_text_patterns
  rw [Q.toRat_add]
  have e32 : (qq 3 2).toRat = 3 / 2 := by rw [Q.toRat_qq 3 2 (by norm_num)]; norm_num
  have e65 : (qq 6 5).toRat = 6 / 5 := by rw [Q.toRat_qq 6 5 (by norm_num)]; norm_num
  have e1 : (qI 1).toRat = 1 := by rw [Q.toRat_qI]; norm_num
  have h1 : 0 ≤ (if RegexPy.mHeading1 text.data || RegexPy.mHeading2 text.data ||
        RegexPy.mHeading3 text.data || RegexPy.mHeading4 text.data ||
        RegexPy.mHeading5 text.data || RegexPy.mHeading6 text.data ||
        RegexPy.mHeading7 text.data || RegexPy.mHeading8 text.data ||
        RegexPy.mHeading9 text.data then qq 3 2 else q0).toRat ∧
      (if RegexPy.mHeading1 text.data || RegexPy.mHeading2 text.data ||
        RegexPy.mHeading3 text.data || RegexPy.mHeading4 text.data ||
        RegexPy.mHeading5 text.data || RegexPy.mHeading6 text.data ||
        RegexPy.mHeading7 text.data || RegexPy.mHeading8 text.data ||
        RegexPy.mHeading9 text.data then qq 3 2 else q0).toRat ≤ 3 / 2 := by
    split
    · rw [e32]; norm_num
    · rw [Q.toRat_q0]; norm_num
  have h2 : 0 ≤ (if RegexPy.mNumDot text.data then qI 1
        else if RegexPy.mNumDotNum text.data then qq 6 5
        else if RegexPy.mNumDotNumDotNum text.data then qI 1 else q0).toRat ∧
      (if RegexPy.mNumDot text.data then qI 1
        else if RegexPy.mNumDotNum text.data then qq 6 5
        else if RegexPy.mNumDotNumDotNum text.data then qI 1 else q0).toRat ≤ 1 := by
    split
    · rw [e1]; norm_num
    · next hnd =>
      split
      · next hndn => exact absurd (mNumDotNum_imp_mNumDot _ hndn) hnd
      · next hndn =>
        split
        · next h3 =>
          exact absurd (mNumDotNum_imp_mNumDot _ (mHeading3_imp_mNumDotNum _ h3)) hnd
        · rw [Q.toRat_q0]; norm_num
  constructor
  · linarith [h1.1, h2.1]
  · linarith [h1.2, h2.2]

/-! ### C3: heading fusion and strategy order -/

/-- The key is unchanged by the fusion updates. -/
theorem combine_key_boost (h c : Heading) :
    HeadingDetector.combine_key (HeadingDetector.boost_entry h c) = HeadingDetector.combine_key h :=
  rfl

theorem combine_key_entry (c : Heading) :
    HeadingDetector.combine_key (HeadingDetector.combine_entry c) = HeadingDetector.combine_key c :=
  rfl

/-- Keys after one insertion: the old keys plus the candidate's key. -/
theorem keys_insert_candidate (st : List Heading) (c : Heading) (k : String × Nat) :
    (∃ h ∈ HeadingDetector.insert_candidate st c, HeadingDetector.combine_key h = k) ↔
      (∃ h ∈ st, HeadingDetector.combine_key h = k) ∨ HeadingDetector.combine_key c = k := by
  unfold HeadingDetector.insert_candidate
  split
  · next hany =>
    rw [List.any_eq_true] at hany
    obtain ⟨h0, hh0, hk0⟩ := hany
    rw [decide_eq_true_iff] at hk0
    constructor
    · rintro ⟨h, hh, hk⟩
      rw [List.mem_map] at hh
      obtain ⟨a, ha, rfl⟩ := hh
      left
      refine ⟨a, ha, ?_⟩
      by_cases hca : decide (HeadingDetector.combine_key a = HeadingDetector.combine_key c) = true
      · rw [if_pos hca] at hk
        rw [← hk, combine_key_boost]
      · rw [if_neg hca] at hk
        exact hk
    · rintro (⟨h, hh, hk⟩ | hk)
      · refine ⟨if decide (HeadingDetector.combine_key h = HeadingDetector.combine_key c) = true
            then HeadingDetector.boost_entry h c else h, ?_, ?_⟩
        · rw [List.mem_map]
          exact ⟨h, hh, by split <;> rfl⟩
        · split
          · rw [combine_key_boost]; exact hk
          · exact hk
      · refine ⟨if decide (HeadingDetector.combine_key h0 = HeadingDetector.combine_key c) = true
            then HeadingDetector.boost_entry h0 c else h0, ?_, ?_⟩
        · rw [List.mem_map]
          exact ⟨h0, hh0, by split <;> rfl⟩
        · split
          · rw [combine_key_boost, hk0]; exact hk
          · rw [hk0]; exact hk
  · constructor
    · rintro ⟨h, hh, hk⟩
      rw [List.mem_append] at hh
      rcases hh with hh | hh
      · exact Or.inl ⟨h, hh, hk⟩
      · rw [List.mem_singleton] at hh
        subst hh
        exact Or.inr hk
    · rintro (⟨h, hh, hk⟩ | hk)
      · exact ⟨h, List.mem_append.mpr (Or.inl hh), hk⟩
      · exact ⟨HeadingDetector.combine_entry c,
          List.mem_append.mpr (Or.inr (List.mem_singleton.mpr rfl)), hk⟩

/-- Keys of the whole fold. -/
theorem keys_foldl (cs : List Heading) (st : List Heading) (k : String × Nat) :
    (∃ h ∈ cs.foldl HeadingDetector.insert_candidate st, HeadingDetector.combine_key h = k) ↔
      (∃ h ∈ st, HeadingDetector.combine_key h = k) ∨
        (∃ c ∈ cs, HeadingDetector.combine_key c = k) := by
  induction cs generalizing st with
  | nil => simp
  | cons c cs ih =>
    rw [List.foldl_cons, ih, keys_insert_candidate]
    constructor
    · rintro ((h | h) | h)
      · exact Or.inl h
      · exact Or.inr ⟨c, List.mem_cons_self c cs, h⟩
      · obtain ⟨c', hc', hk⟩ := h
        exact Or.inr ⟨c', List.mem_cons_of_mem c hc', hk⟩
    · rintro (h | ⟨c', hc', hk⟩)
      · exact Or.inl (Or.inl h)
      · rcases List.mem_cons.mp hc' with rfl | hc'
        · exact Or.inl (Or.inr hk)
        · exact Or.inr ⟨c', hc', hk⟩

/-- C3 counterexample: with one element producing both a score candidate
(confidence 0.4) and a pattern candidate (confidence 0.9), fusing in the
order score-pattern-font gives merged confidence 0.6, while the order
pattern-score-font gives 1.0: fusion is not order-invariant. -/
theorem c3_counterexample :
    (HeadingDetector.combine_strategies [c3score, c3pattern, c3font]).map Heading.confidence
        = [qq 3 5] ∧
      (HeadingDetector.combine_strategies [c3pattern, c3score, c3font]).map Heading.confidence
        = [qI 1] ∧
      (qq 3 5).lt (qI 1) := by
  refine ⟨by decide, by decide, by decide⟩

/-- C3 (amended): what is order-invariant is the merged key set — a key
`(first 50 characters, page)` occurs among the fused candidates exactly
when it occurs among the raw candidates of the strategies, in whatever
order the strategy lists are given — while the merged confidences (and
the retained base fields) depend on the strategy order, as the
counterexample shows. -/
theorem c3_amended_key_set_invariant (strategy_results : List (List Heading))
    (k : String × Nat) :
    (∃ h ∈ HeadingDetector.combine_strategies strategy_results,
        HeadingDetector.combine_key h = k) ↔
      (∃ c ∈ strategy_results.flatten, HeadingDetector.combine_key c = k) := by
  unfold HeadingDetector.combine_strategies
  rw [keys_foldl]
  simp

/-! ### C9: the font-clustering strategy -/

/-- Membership characterisation of the font-clustering candidates. -/
theorem font_cluster_mem (elements : List Element) (h : Heading) :
    h ∈ HeadingDetector.detect_by_font_clustering elements ↔
      ∃ i size, ((HeadingDetector.sorted_font_sizes elements).take 4).get? i = some size ∧
        (2 ≤ (HeadingDetector.font_candidates elements size).length ∧
          (HeadingDetector.font_candidates elements size).length ≤ 20) ∧
        ∃ e ∈ HeadingDetector.font_candidates elements size,
          h = HeadingDetector.font_heading e i := by
  unfold HeadingDetector.detect_by_font_clustering
  rw [List.mem_flatMap]
  constructor
  · rintro ⟨iv, hiv, hmem⟩
    rw [List.mem_enum_iff_get?] at hiv
    split at hmem
    · next hp =>
      rw [List.mem_map] at hmem
      obtain ⟨e, he, rfl⟩ := hmem
      exact ⟨iv.1, iv.2, hiv, hp, e, he, rfl⟩
    · exact absurd hmem (List.not_mem_nil h)
  · rintro ⟨i, size, hget, hp, e, he, rfl⟩
    refine ⟨(i, size), List.mem_enum_iff_get?.mpr hget, ?_⟩
    rw [if_pos hp, List.mem_map]
    exact ⟨e, he, rfl⟩

/-- C9 counterexample: a single size group (hence among the four largest)
holding three raw elements — between 2 and 20 — emits no candidates,
because only one element survives the per-element filters: the 2-to-20
test is applied to the filtered candidates, not to the group. -/
theorem c9_counterexample :
    HeadingDetector.sorted_font_sizes c9elems = [qI 17] ∧
      (c9elems.filter (fun e => decide (e.font_size = qI 17))).length = 3 ∧
      HeadingDetector.detect_by_font_clustering c9elems = [] := by
  refine ⟨by decide, by decide, by decide⟩

/-- C9 (amended): only the four largest distinct font sizes are examined;
the size group ranked `i`-th largest emits heading candidates if and only
if its elements that survive the per-element filters (stripped text of at
most 200 characters, not a bare number or `page N`) number between 2 and
20; and every emitted candidate of that group carries confidence
`0.7 - 0.15 * i` and `font_level` `i + 1`. -/
theorem c9_amended_font_clustering (elements : List Element) :
    (∀ h ∈ HeadingDetector.detect_by_font_clustering elements,
       ∃ i size, i < 4 ∧
         ((HeadingDetector.sorted_font_sizes elements).take 4).get? i = some size ∧
         h.font_level = some (i + 1) ∧ h.font_size = size ∧
         h.confidence = (qq 7 10).sub ((qI i).mul (qq 3 20)) ∧
         2 ≤ (HeadingDetector.font_candidates elements size).length ∧
         (HeadingDetector.font_candidates elements size).length ≤ 20) ∧
    (∀ i size, ((HeadingDetector.sorted_font_sizes elements).take 4).get? i = some size →
       ((∃ h ∈ HeadingDetector.detect_by_font_clustering elements,
           h.font_level = some (i + 1)) ↔
         2 ≤ (HeadingDetector.font_candidates elements size).length ∧
           (HeadingDetector.font_candidates elements size).length ≤ 20)) := by
  constructor
  · intro h hmem
    obtain ⟨i, size, hget, hp, e, he, rfl⟩ := (font_cluster_mem elements h).mp hmem
    have hi : i < 4 := by
      have h1 := (List.get?_eq_some.mp hget).fst
      have h2 : ((HeadingDetector.sorted_font_sizes elements).take 4).length ≤ 4 := by
        rw [List.length_take]
        exact min_le_left _ _
      exact lt_of_lt_of_le h1 h2
    have hsize : e.font_size = size := by
      have := (List.mem_filter.mp (List.mem_filter.mp he).1).2
      rwa [decide_eq_true_iff] at this
    exact ⟨i, size, hi, hget, rfl, hsize, rfl, hp⟩
  · intro i size hget
    constructor
    · rintro ⟨h, hmem, hfl⟩
      obtain ⟨i', size', hget', hp', e, he, rfl⟩ := (font_cluster_mem elements h).mp hmem
      have hii : i' = i := by
        have : i' + 1 = i + 1 := Option.some.inj hfl
        omega
      subst hii
      rw [hget'] at hget
      rw [Option.some.inj hget] at hp'
      exact hp'
    · intro hp
      have hpos : 0 < (HeadingDetector.font_candidates elements size).length := by omega
      obtain ⟨e, he⟩ := List.exists_mem_of_length_pos hpos
      exact ⟨HeadingDetector.font_heading e i,
        (font_cluster_mem elements _).mpr ⟨i, size, hget, hp, e, he, rfl⟩, rfl⟩

/-- C9 witness: a size group with exactly two surviving candidates emits
headings for its rank. -/
theorem c9_witness :
    (∃ h ∈ HeadingDetector.detect_by_font_clustering c9welems, h.font_level = some 1) ∧
      (HeadingDetector.font_candidates c9welems (qI 17)).length = 2 :=
  ⟨((c9_amended_font_clustering c9welems).2 0 (qI 17) (by decide)).mpr (by decide), by decide⟩

/-! ### C10: lone fourth-group font-clustering candidates never survive -/

/-- Score-strategy candidates carry no `font_level`. -/
theorem score_font_level_none (elements : List Element) :
    ∀ c ∈ HeadingDetector.detect_by_score elements, c.font_level = none := by
  intro c hc
  unfold HeadingDetector.detect_by_score at hc
  rw [List.mem_filterMap] at hc
  obtain ⟨e, _, he⟩ := hc
  dsimp only at he
  split at he
  · rw [← Option.some.inj he]; rfl
  · exact absurd he (by simp)


/-- Pattern-strategy candidates carry no `font_level`. -/
theorem pattern_font_level_none (elements : List Element) :
    ∀ c ∈ HeadingDetector.detect_by_patterns elements, c.font_level = none := by
  intro c hc
  unfold HeadingDetector.detect_by_patterns at hc
  rw [List.mem_filterMap] at hc
  obtain ⟨e, _, he⟩ := hc
  rw [Option.map_eq_some'] at he
  obtain ⟨l, _, rfl⟩ := he
  rfl

/-- A fourth-group font-clustering candidate has confidence 0.25. -/
theorem font_level_four_confidence (elements : List Element) :
    ∀ c ∈ HeadingDetector.detect_by_font_clustering elements,
      c.font_level = some 4 → c.confidence = qq 1 4 := by
  intro c hc hfl
  obtain ⟨i, size, _, _, e, _, rfl⟩ := (font_cluster_mem elements c).mp hc
  have hi : i = 3 := by
    have : i + 1 = 4 := Option.some.inj hfl
    omega
  subst hi
  exact (by decide : (qq 7 10).sub ((qI 3).mul (qq 3 20)) = qq 1 4)

/-- Fusion invariant: every entry of the combining dict has a non-empty
`detection_methods` list, and an entry whose list is still a singleton is
an untouched insertion of one raw candidate. -/
theorem insert_candidate_good (U : List Heading) (st : List Heading) (c : Heading)
    (hc : c ∈ U)
    (hst : ∀ h ∈ st, ∃ ms, h.detection_methods = some ms ∧ ms ≠ [] ∧
      ∀ m, ms = [m] → ∃ c' ∈ U, h = HeadingDetector.combine_entry c') :
    ∀ h ∈ HeadingDetector.insert_candidate st c, ∃ ms, h.detection_methods = some ms ∧ ms ≠ [] ∧
      ∀ m, ms = [m] → ∃ c' ∈ U, h = HeadingDetector.combine_entry c' := by
  intro h hh
  unfold HeadingDetector.insert_candidate at hh
  split at hh
  · rw [List.mem_map] at hh
    obtain ⟨a, ha, rfl⟩ := hh
    split
    · obtain ⟨ms, hms, hne, _⟩ := hst a ha
      refine ⟨ms ++ [c.detection_method], ?_, by simp, ?_⟩
      · unfold HeadingDetector.boost_entry
        simp [hms]
      · intro m hm
        have : ms.length + 1 = 1 := by
          have := congrArg List.length hm
          simpa using this
        have hms0 : ms = [] := List.length_eq_zero.mp (by omega)
        exact absurd hms0 hne
    · exact hst a ha
  · rw [List.mem_append] at hh
    rcases hh with hh | hh
    · exact hst h hh
    · rw [List.mem_singleton] at hh
      subst hh
      exact ⟨[c.detection_method], rfl, by simp, fun m _ => ⟨c, hc, rfl⟩⟩

theorem foldl_insert_good (U : List Heading) :
    ∀ (cs st : List Heading), (∀ c ∈ cs, c ∈ U) →
      (∀ h ∈ st, ∃ ms, h.detection_methods = some ms ∧ ms ≠ [] ∧
        ∀ m, ms = [m] → ∃ c' ∈ U, h = HeadingDetector.combine_entry c') →
      ∀ h ∈ cs.foldl HeadingDetector.insert_candidate st,
        ∃ ms, h.detection_methods = some ms ∧ ms ≠ [] ∧
          ∀ m, ms = [m] → ∃ c' ∈ U, h = HeadingDetector.combine_entry c' := by
  intro cs
  induction cs with
  | nil => intro st _ hst h hh; exact hst h hh
  | cons c cs ih =>
    intro st hcs hst h hh
    rw [List.foldl_cons] at hh
    exact ih _ (fun c' hc' => hcs c' (List.mem_cons_of_mem c hc'))
      (insert_candidate_good U st c (hcs c (List.mem_cons_self c cs)) hst) h hh

theorem combine_singleton_entry (strategy_results : List (List Heading)) (h : Heading)
    (hmem : h ∈ HeadingDetector.combine_strategies strategy_results)
    (m : String) (hms : h.detection_methods = some [m]) :
    ∃ c ∈ strategy_results.flatten, h = HeadingDetector.combine_entry c := by
  have := foldl_insert_good strategy_results.flatten strategy_results.flatten []
    (fun c hc => hc) (by intro h hh; exact absurd hh (List.not_mem_nil h)) h hmem
  obtain ⟨ms, hms', _, hsing⟩ := this
  rw [hms] at hms'
  exact hsing m (Option.some.inj hms').symm

/-- C10 (amended): a heading detected by the font-clustering strategy from
the fourth-largest size group and merged with no other candidate (its
`detection_methods` remain the singleton `["font_cluster"]`, `font_level`
4) has confidence exactly 0.25, and is therefore always removed by
`filter_false_positives`, whose confidence threshold is strict (`> 0.3`).
The unmerged restriction is necessary: `c10_counterexample` fuses two
same-key fourth-group font-cluster votes to confidence 0.45, which
survives the filter. -/
theorem c10_lone_fourth_group_filtered (elements : List Element) (h : Heading)
    (hmem : h ∈ HeadingDetector.detect_headings elements)
    (hms : h.detection_methods = some ["font_cluster"])
    (hfl : h.font_level = some 4) :
    h.confidence = qq 1 4 ∧
      ∀ l, h ∉ HeadingDetector.filter_false_positives l := by
  have hconf : h.confidence = qq 1 4 := by
    unfold HeadingDetector.detect_headings at hmem
    split at hmem
    · exact absurd hmem (List.not_mem_nil h)
    · rw [List.mem_mergeSort] at hmem
      unfold HeadingDetector.assign_hierarchy_levels at hmem
      split at hmem
      · exact absurd hmem (List.not_mem_nil h)
      · rw [List.mem_map] at hmem
        obtain ⟨h0, hh0, rfl⟩ := hmem
        obtain ⟨c, hcmem, rfl⟩ := combine_singleton_entry _ h0 hh0 "font_cluster" hms
        have hflc : c.font_level = some 4 := hfl
        have hcm : c ∈ HeadingDetector.detect_by_score elements ∨
            c ∈ HeadingDetector.detect_by_patterns elements ∨
            c ∈ HeadingDetector.detect_by_font_clustering elements := by
          simpa using hcmem
        rcases hcm with hcm | hcm | hcm
        · exact absurd hflc (by rw [score_font_level_none elements c hcm]; simp)
        · exact absurd hflc (by rw [pattern_font_level_none elements c hcm]; simp)
        · exact font_level_four_confidence elements c hcm hflc
  refine ⟨hconf, ?_⟩
  intro l hcontra
  unfold HeadingDetector.filter_false_positives at hcontra
  have hp := (List.mem_filter.mp hcontra).2
  rw [Bool.and_eq_true, Bool.and_eq_true, Bool.and_eq_true] at hp
  have hblt := hp.2
  rw [hconf, Q.blt_iff] at hblt
  rw [Q.toRat_qq 3 10 (by norm_num), Q.toRat_qq 1 4 (by norm_num)] at hblt
  norm_num at hblt

/-- C10 witness: a concrete element stream whose fourth-largest size group
yields exactly such a heading; it is absent from the filtered list. -/
theorem c10_witness :
    c10h ∈ HeadingDetector.detect_headings c10elems ∧
      c10h.confidence = qq 1 4 ∧
      c10h ∉ HeadingDetector.filter_false_positives (HeadingDetector.detect_headings c10elems) :=
  ⟨by decide,
   (c10_lone_fourth_group_filtered c10elems c10h (by decide) rfl rfl).1,
   (c10_lone_fourth_group_filtered c10elems c10h (by decide) rfl rfl).2 _⟩

/-! ### C4: the section ranker's invariants -/

theorem except_bind_ok {ε α β : Type} {x : Except ε α} {f : α → Except ε β} {b : β}
    (h : Bind.bind x f = Except.ok b) : ∃ a, x = Except.ok a ∧ f a = Except.ok b := by
  cases x with
  | error e => exact absurd h (by simp [Bind.bind, Except.bind])
  | ok a => exact ⟨a, rfl, by simpa [Bind.bind, Except.bind] using h⟩

/-- A Python-`min` of a non-negative sum against the 1.0 cap lies in
[0, 1]. -/
theorem pmin_base_bonus_bounds (base bonus : Q) (hb : 0 ≤ base.toRat)
    (hbo : 0 ≤ bonus.toRat) :
    0 ≤ (Q.pmin (base.add bonus) (qI 1)).toRat ∧
      (Q.pmin (base.add bonus) (qI 1)).toRat ≤ 1 := by
  have e1 : (qI 1).toRat = 1 := by rw [Q.toRat_qI]; norm_num
  constructor
  · rw [Q.toRat_pmin, Q.toRat_add, e1]
    refine le_min (by linarith) (by norm_num)
  · rw [Q.toRat_pmin, e1]
    exact min_le_right _ _

theorem ite_bonus_nonneg (c : Prop) [Decidable c] (x y : Q) (hx : 0 ≤ x.toRat)
    (hy : 0 ≤ y.toRat) : 0 ≤ (if c then x else y).toRat := by
  split
  · exact hx
  · exact hy

/-- The final score of `_calculate_final_score` lands in [0, 1] whenever
the base relevance is non-negative. -/
theorem calc_final_score_bounds (sec : SectionDict) (p j : PyValue) (fs : Q)
    (hok : SectionExtractor.calculate_final_score sec p j = Except.ok fs)
    (hbase : 0 ≤ (sec.relevance_score.getD q0).toRat) :
    0 ≤ fs.toRat ∧ fs.toRat ≤ 1 := by
  have n0 : 0 ≤ q0.toRat := by rw [Q.toRat_q0]
  have n110 : 0 ≤ (qq 1 10).toRat := by rw [Q.toRat_qq 1 10 (by norm_num)]; norm_num
  have n120 : 0 ≤ (qq 1 20).toRat := by rw [Q.toRat_qq 1 20 (by norm_num)]; norm_num
  have n320 : 0 ≤ (qq 3 20).toRat := by rw [Q.toRat_qq 3 20 (by norm_num)]; norm_num
  unfold SectionExtractor.calculate_final_score at hok
  dsimp only at hok
  split at hok <;>
  · obtain ⟨L, _, hok⟩ := except_bind_ok hok
    obtain ⟨hp, _, hok⟩ := except_bind_ok hok
    obtain ⟨hj, _, hok⟩ := except_bind_ok hok
    simp only [Pure.pure, Except.pure, Except.ok.injEq] at hok
    rw [← hok]
    refine pmin_base_bonus_bounds _ _ hbase ?_
    rw [Q.toRat_add, Q.toRat_add, Q.toRat_add, Q.toRat_add]
    exact add_nonneg (add_nonneg (add_nonneg (add_nonneg
      (ite_bonus_nonneg _ _ _ n110 (ite_bonus_nonneg _ _ _ n120 n0))
      (ite_bonus_nonneg _ _ _ n320 (ite_bonus_nonneg _ _ _ n120 n0)))
      (ite_bonus_nonneg _ _ _ n110 n0))
      (ite_bonus_nonneg _ _ _ n110 n0))
      (ite_bonus_nonneg _ _ _ n110 n0)

/-- Every output of the scoring loop is an input section stamped with its
final score. -/
theorem scored_sections_loop_mem (p j : PyValue) :
    ∀ (l out : List SectionDict),
      SectionExtractor.scored_sections_loop p j l = Except.ok out →
      ∀ s' ∈ out, ∃ s ∈ l, ∃ fs,
        SectionExtractor.calculate_final_score s p j = Except.ok fs ∧
          s' = { s with final_score := some fs } := by
  intro l
  induction l with
  | nil =>
    intro out hout s' hs'
    unfold SectionExtractor.scored_sections_loop at hout
    have : [] = out := by simpa [Pure.pure, Except.pure] using hout
    rw [← this] at hs'
    exact absurd hs' (List.not_mem_nil s')
  | cons s rest ih =>
    intro out hout s' hs'
    unfold SectionExtractor.scored_sections_loop at hout
    obtain ⟨fs, hfs, hout⟩ := except_bind_ok hout
    obtain ⟨tl, htl, hout⟩ := except_bind_ok hout
    have hcons : { s with final_score := some fs } :: tl = out := by
      simpa [Pure.pure, Except.pure] using hout
    rw [← hcons] at hs'
    rcases List.mem_cons.mp hs' with h | h
    · exact ⟨s, List.mem_cons_self s rest, fs, hfs, h⟩
    · obtain ⟨s0, hs0, fs0, h1, h2⟩ := ih tl htl s' h
      exact ⟨s0, List.mem_cons_of_mem s hs0, fs0, h1, h2⟩

theorem final_score_le_trans (a b c : SectionDict)
    (h1 : SectionExtractor.final_score_le a b = true)
    (h2 : SectionExtractor.final_score_le b c = true) :
    SectionExtractor.final_score_le a c = true := by
  unfold SectionExtractor.final_score_le at *
  rw [Q.ble_iff] at *
  exact le_trans h2 h1

theorem final_score_le_total (a b : SectionDict) :
    (SectionExtractor.final_score_le a b || SectionExtractor.final_score_le b a) = true := by
  unfold SectionExtractor.final_score_le
  rw [Bool.or_eq_true, Q.ble_iff, Q.ble_iff]
  exact le_total _ _

/-- C4: every surviving section's final score lies in [0, 1]; the emitted
records come from a descending-final-score ordering of the surviving
sections, carry the dense ranks 1..k with k = min 5 k₀, and the five
selected sections score at least as high as every section left out. -/
theorem c4_ranker_invariants (documents_data : List DocumentData)
    (relevant_sections : List SectionDict) (persona job_to_be_done : PyValue)
    (scored : List SectionDict)
    (hs : SectionExtractor.scored_sections relevant_sections persona job_to_be_done
        = Except.ok scored) :
    (∀ s ∈ scored, 0 ≤ (s.final_score.getD q0).toRat ∧ (s.final_score.getD q0).toRat ≤ 1) ∧
    ∃ sorted ext,
      sorted.Perm scored ∧
      List.Pairwise (fun a b =>
        (b.final_score.getD q0).toRat ≤ (a.final_score.getD q0).toRat) sorted ∧
      SectionExtractor.extract_sections documents_data relevant_sections persona job_to_be_done
        = Except.ok ext ∧
      ext = (sorted.take 5).enum.map (fun is =>
        ExtractedSection.mk (is.2.document.getD emptyS) is.2.page_number
          (SectionExtractor.clean_section_title is.2.section_title) (is.1 + 1)) ∧
      ext.map ExtractedSection.importance_rank = List.range' 1 (min 5 scored.length) ∧
      (∀ a ∈ sorted.take 5, ∀ b ∈ sorted.drop 5,
        (b.final_score.getD q0).toRat ≤ (a.final_score.getD q0).toRat) := by
  have hmem := scored_sections_loop_mem persona job_to_be_done
    (SectionExtractor.filtered_sections relevant_sections) scored hs
  constructor
  · intro s' hs'
    obtain ⟨s, hsl, fs, hfs, rfl⟩ := hmem s' hs'
    have hrel : (qq 1 5).ble (s.relevance_score.getD q0) = true :=
      (List.mem_filter.mp hsl).2
    rw [Q.ble_iff, Q.toRat_qq 1 5 (by norm_num)] at hrel
    have hbase : 0 ≤ (s.relevance_score.getD q0).toRat := by
      refine le_trans ?_ hrel
      norm_num
    have := calc_final_score_bounds s persona job_to_be_done fs hfs hbase
    simpa using this
  · refine ⟨scored.mergeSort SectionExtractor.final_score_le, _, List.mergeSort_perm _ _, ?_, ?_, rfl, ?_, ?_⟩
    · have hpw := @List.sorted_mergeSort _ SectionExtractor.final_score_le
        final_score_le_trans final_score_le_total scored
      refine hpw.imp ?_
      intro a b hab
      unfold SectionExtractor.final_score_le at hab
      rwa [Q.ble_iff] at hab
    · unfold SectionExtractor.extract_sections
      rw [hs]
      show Except.ok _ = Except.ok _
      rw [List.take_take]
      norm_num
    · rw [List.map_map]
      have hfun : (ExtractedSection.importance_rank ∘ fun is : Nat × SectionDict =>
          ExtractedSection.mk (is.2.document.getD emptyS) is.2.page_number
            (SectionExtractor.clean_section_title is.2.section_title) (is.1 + 1))
          = (fun n : Nat => n + 1) ∘ Prod.fst := rfl
      rw [hfun, ← List.map_map, List.enum_map_fst, List.length_take, List.length_mergeSort,
        List.range'_eq_map_range]
      have : (fun n : Nat => n + 1) = fun n : Nat => 1 + n := by
        funext n
        omega
      rw [this]
    · have hpw := @List.sorted_mergeSort _ SectionExtractor.final_score_le
        final_score_le_trans final_score_le_total scored
      have hpw2 : List.Pairwise (fun a b =>
          (b.final_score.getD q0).toRat ≤ (a.final_score.getD q0).toRat)
          (scored.mergeSort SectionExtractor.final_score_le) := by
        refine hpw.imp ?_
        intro a b hab
        unfold SectionExtractor.final_score_le at hab
        rwa [Q.ble_iff] at hab
      rw [← List.take_append_drop 5 (scored.mergeSort SectionExtractor.final_score_le)] at hpw2
      exact (List.pairwise_append.mp hpw2).2.2

/-- C4 witness: a concrete surviving section with final score 0.95. -/
theorem c4_witness :
    SectionExtractor.scored_sections [c4sec] personaDict jobDict = Except.ok [c4scored] ∧
      0 ≤ (c4scored.final_score.getD q0).toRat ∧ (c4scored.final_score.getD q0).toRat ≤ 1 :=
  ⟨by decide,
   ((c4_ranker_invariants [] [c4sec] personaDict jobDict [c4scored] (by decide)).1 c4scored
      (List.mem_singleton.mpr rfl)).1,
   ((c4_ranker_invariants [] [c4sec] personaDict jobDict [c4scored] (by decide)).1 c4scored
      (List.mem_singleton.mpr rfl)).2⟩

/-! ### C6: failures degrade to an empty-but-valid result -/

/-- C6: when zero documents parse, `process_document_collection` returns
the empty result (both output lists empty); and for every input the
returned value is either an empty-but-valid result or the well-formed
result built from a successfully completed analysis — an exception is
never propagated to the caller. -/
theorem c6_empty_and_total (stdev : List Q → Q) (pdf_files : List (String × List Page))
    (persona job_to_be_done : PyValue) (timestamp : String) :
    ((pdf_files.filterMap (DocumentIntelligenceService.parse_single_document stdev) = []) →
      DocumentIntelligenceService.process_document_collection stdev pdf_files persona
          job_to_be_done timestamp =
        DocumentIntelligenceService.create_empty_result pdf_files persona job_to_be_done
          timestamp ∧
      (DocumentIntelligenceService.process_document_collection stdev pdf_files persona
          job_to_be_done timestamp).extracted_sections = [] ∧
      (DocumentIntelligenceService.process_document_collection stdev pdf_files persona
          job_to_be_done timestamp).subsection_analysis = []) ∧
    ((DocumentIntelligenceService.process_document_collection stdev pdf_files persona
          job_to_be_done timestamp).extracted_sections = [] ∧
      (DocumentIntelligenceService.process_document_collection stdev pdf_files persona
          job_to_be_done timestamp).subsection_analysis = [] ∨
      ∃ ext subs,
        DocumentIntelligenceService.process_body
            (pdf_files.filterMap (DocumentIntelligenceService.parse_single_document stdev))
            persona job_to_be_done = Except.ok (ext, subs) ∧
        DocumentIntelligenceService.process_document_collection stdev pdf_files persona
            job_to_be_done timestamp =
          DocumentIntelligenceService.build_result pdf_files persona job_to_be_done ext subs
            timestamp) := by
  unfold DocumentIntelligenceService.process_document_collection
  constructor
  · intro hempty
    rw [hempty]
    exact ⟨rfl, rfl, rfl⟩
  · by_cases hd : (pdf_files.filterMap
        (DocumentIntelligenceService.parse_single_document stdev)).isEmpty = true
    · rw [if_pos hd]
      exact Or.inl ⟨rfl, rfl⟩
    · rw [if_neg hd]
      cases hb : DocumentIntelligenceService.process_body
          (pdf_files.filterMap (DocumentIntelligenceService.parse_single_document stdev))
          persona job_to_be_done with
      | ok r => exact Or.inr ⟨r.1, r.2, rfl, rfl⟩
      | error e => exact Or.inl ⟨rfl, rfl⟩

/-- C6 witness: a run whose single document fails to parse returns the
empty result. -/
theorem c6_witness :
    (DocumentIntelligenceService.process_document_collection stdev0 c6files personaStr jobStr
        ts1).extracted_sections = [] ∧
      (DocumentIntelligenceService.process_document_collection stdev0 c6files personaStr jobStr
        ts1).subsection_analysis = [] :=
  ((c6_empty_and_total stdev0 c6files personaStr jobStr ts1).1 (by decide)).2

/-! ### C7: re-running the pipeline -/

/-- C7 counterexample: the returned result embeds the wall-clock timestamp
(`datetime.now().isoformat()`) in its metadata, so two runs of the full
pipeline on identical parsed-document input and identical persona/job
inputs return different complete results. -/
theorem c7_counterexample :
    (DocumentIntelligenceService.process_document_collection stdev0 c6files personaStr jobStr
        ts1).metadata.processing_timestamp ≠
      (DocumentIntelligenceService.process_document_collection stdev0 c6files personaStr jobStr
        ts2).metadata.processing_timestamp ∧
    DocumentIntelligenceService.process_document_collection stdev0 c6files personaStr jobStr ts1 ≠
      DocumentIntelligenceService.process_document_collection stdev0 c6files personaStr jobStr
        ts2 := by
  refine ⟨by decide, by decide⟩

/-- C7 (amended): two runs on identical parsed-document input and
identical persona/job inputs agree on every output component except
`metadata.processing_timestamp`; in particular, with equal clock readings
the complete results are identical. -/
theorem c7_amended_identical_up_to_timestamp (stdev : List Q → Q)
    (pdf_files : List (String × List Page)) (persona job_to_be_done : PyValue)
    (t1 t2 : String) :
    (DocumentIntelligenceService.process_document_collection stdev pdf_files persona
        job_to_be_done t1).extracted_sections =
      (DocumentIntelligenceService.process_document_collection stdev pdf_files persona
        job_to_be_done t2).extracted_sections ∧
    (DocumentIntelligenceService.process_document_collection stdev pdf_files persona
        job_to_be_done t1).subsection_analysis =
      (DocumentIntelligenceService.process_document_collection stdev pdf_files persona
        job_to_be_done t2).subsection_analysis ∧
    (DocumentIntelligenceService.process_document_collection stdev pdf_files persona
        job_to_be_done t1).metadata.input_documents =
      (DocumentIntelligenceService.process_document_collection stdev pdf_files persona
        job_to_be_done t2).metadata.input_documents ∧
    (DocumentIntelligenceService.process_document_collection stdev pdf_files persona
        job_to_be_done t1).metadata.persona =
      (DocumentIntelligenceService.process_document_collection stdev pdf_files persona
        job_to_be_done t2).metadata.persona ∧
    (DocumentIntelligenceService.process_document_collection stdev pdf_files persona
        job_to_be_done t1).metadata.job_to_be_done =
      (DocumentIntelligenceService.process_document_collection stdev pdf_files persona
        job_to_be_done t2).metadata.job_to_be_done := by
  unfold DocumentIntelligenceService.process_document_collection
  dsimp only
  by_cases hd : (pdf_files.filterMap
      (DocumentIntelligenceService.parse_single_document stdev)).isEmpty = true
  · rw [if_pos hd, if_pos hd]
    exact ⟨rfl, rfl, rfl, rfl, rfl⟩
  · rw [if_neg hd, if_neg hd]
    cases hb : DocumentIntelligenceService.process_body
        (pdf_files.filterMap (DocumentIntelligenceService.parse_single_document stdev))
        persona job_to_be_done with
    | ok r => exact ⟨rfl, rfl, rfl, rfl, rfl⟩
    | error e => exact ⟨rfl, rfl, rfl, rfl, rfl⟩

/-! ### C1: string persona / job inputs crash the analysis -/

/-- The relevance analyzer raises `AttributeError` the moment the persona
argument is a plain string, because it calls `.get('role', ...)` on it. -/
theorem analyze_relevance_str_error (documents_data : List DocumentData) (s : String)
    (job_to_be_done : PyValue) :
    RelevanceAnalyzer.analyze_relevance documents_data (PyValue.str s) job_to_be_done =
      Except.error PyErr.attributeError := rfl

/-- C1: with the persona and job supplied to the core as two free-text
strings — the interface the spec, the function signatures, and `main.py`'s
documented config format all describe — `process_document_collection`
returns the empty result for every document collection: the
`persona.get('role', ...)` call inside the relevance analyzer raises
`AttributeError`, the outer `except` swallows it, and no headings,
sections or subsections are ever emitted, contrary to the worked scenario
the claim describes. -/
theorem c1_string_inputs_empty_result (stdev : List Q → Q)
    (pdf_files : List (String × List Page)) (s1 s2 : String) (timestamp : String) :
    (DocumentIntelligenceService.process_document_collection stdev pdf_files (PyValue.str s1)
        (PyValue.str s2) timestamp).extracted_sections = [] ∧
      (DocumentIntelligenceService.process_document_collection stdev pdf_files (PyValue.str s1)
        (PyValue.str s2) timestamp).subsection_analysis = [] := by
  unfold DocumentIntelligenceService.process_document_collection
  by_cases hd : (pdf_files.filterMap
      (DocumentIntelligenceService.parse_single_document stdev)).isEmpty = true
  · rw [if_pos hd]
    exact ⟨rfl, rfl⟩
  · rw [if_neg hd]
    have hb : DocumentIntelligenceService.process_body
        (pdf_files.filterMap (DocumentIntelligenceService.parse_single_document stdev))
        (PyValue.str s1) (PyValue.str s2) = Except.error PyErr.attributeError := rfl
    rw [hb]
    exact ⟨rfl, rfl⟩

/-! ### C2: order and string lemmas for the segmenter spans -/

theorem lexLe_refl (a : Nat × Q) : SectionSpans.lexLe a a := by
  exact Or.inr ⟨rfl, (Q.le_iff _ _).mpr le_rfl⟩

theorem lexLe_trans {a b c : Nat × Q} (h1 : SectionSpans.lexLe a b)
    (h2 : SectionSpans.lexLe b c) : SectionSpans.lexLe a c := by
  have h1' : a.1 < b.1 ∨ (a.1 = b.1 ∧ a.2.le b.2) := h1
  have h2' : b.1 < c.1 ∨ (b.1 = c.1 ∧ b.2.le c.2) := h2
  rcases h1' with h1' | ⟨h1p, h1y⟩
  · rcases h2' with h2' | ⟨h2p, h2y⟩
    · exact Or.inl (lt_trans h1' h2')
    · exact Or.inl (h2p ▸ h1')
  · rcases h2' with h2' | ⟨h2p, h2y⟩
    · exact Or.inl (h1p ▸ h2')
    · refine Or.inr ⟨h1p.trans h2p, (Q.le_iff _ _).mpr ?_⟩
      exact le_trans ((Q.le_iff _ _).mp h1y) ((Q.le_iff _ _).mp h2y)

theorem lexLt_not_lexLe {a b : Nat × Q} (h1 : SectionSpans.lexLt a b)
    (h2 : SectionSpans.lexLe b a) : False := by
  have h1' : a.1 < b.1 ∨ (a.1 = b.1 ∧ a.2.lt b.2) := h1
  have h2' : b.1 < a.1 ∨ (b.1 = a.1 ∧ b.2.le a.2) := h2
  rcases h1' with h1' | ⟨h1p, h1y⟩
  · rcases h2' with h2' | ⟨h2p, _⟩
    · omega
    · omega
  · rcases h2' with h2' | ⟨h2p, h2y⟩
    · omega
    · have hy1 := (Q.lt_iff _ _).mp h1y
      have hy2 := (Q.le_iff _ _).mp h2y
      linarith

theorem lexLe_of_not_lexLt {a b : Nat × Q} (h : ¬ SectionSpans.lexLt a b) :
    SectionSpans.lexLe b a := by
  have h' : ¬ (a.1 < b.1 ∨ (a.1 = b.1 ∧ a.2.lt b.2)) := h
  push_neg at h'
  obtain ⟨h1, h2⟩ := h'
  rcases Nat.lt_trichotomy a.1 b.1 with hp | hp | hp
  · omega
  · refine Or.inr ⟨hp.symm, ?_⟩
    have hnlt := h2 hp
    rw [Q.lt_iff] at hnlt
    rw [Q.le_iff]
    exact le_of_not_lt hnlt
  · exact Or.inl hp

theorem all_isSpace_reverse (l : Py.Chars) :
    l.reverse.all Py.isSpace = l.all Py.isSpace := by
  simp [List.all_eq_true]

theorem all_isSpace_dropWhile (l : Py.Chars) :
    (l.dropWhile Py.isSpace).all Py.isSpace = l.all Py.isSpace := by
  induction l with
  | nil => rfl
  | cons c cs ih =>
    rw [List.dropWhile_cons]
    by_cases h : Py.isSpace c = true
    · rw [if_pos h]
      simp [List.all_cons, h, ih]
    · rw [if_neg h]

theorem stripL_eq_nil_iff (l : Py.Chars) :
    Py.stripL l = [] ↔ l.all Py.isSpace = true := by
  unfold Py.stripL
  rw [List.reverse_eq_nil_iff, List.dropWhile_eq_nil_iff]
  constructor
  · intro h
    rw [← all_isSpace_dropWhile l, ← all_isSpace_reverse, List.all_eq_true]
    exact h
  · intro h c hc
    have h1 : (l.dropWhile Py.isSpace).all Py.isSpace = true := by
      rw [all_isSpace_dropWhile]
      exact h
    rw [← all_isSpace_reverse, List.all_eq_true] at h1
    exact h1 c hc

theorem nonspace_of_stripL_ne_nil (l : Py.Chars) (h : Py.stripL l ≠ []) :
    ∃ c ∈ Py.stripL l, Py.isSpace c = false := by
  have hne : (l.dropWhile Py.isSpace).reverse.dropWhile Py.isSpace ≠ [] := by
    intro hnil
    apply h
    unfold Py.stripL
    rw [hnil]
    rfl
  refine ⟨((l.dropWhile Py.isSpace).reverse.dropWhile Py.isSpace).head hne, ?_,
    List.head_dropWhile_not Py.isSpace _ hne⟩
  unfold Py.stripL
  rw [List.mem_reverse]
  exact List.head_mem hne

theorem stripL_sublist (l : Py.Chars) : (Py.stripL l).Sublist l := by
  unfold Py.stripL
  have h1 : ((l.dropWhile Py.isSpace).reverse.dropWhile Py.isSpace).Sublist
      (l.dropWhile Py.isSpace).reverse := List.dropWhile_sublist Py.isSpace
  have h2 := h1.reverse
  rw [List.reverse_reverse] at h2
  exact h2.trans (List.dropWhile_sublist Py.isSpace)

theorem strip_eq_emptyS_iff (s : String) :
    Py.strip s = emptyS ↔ Py.stripL s.data = [] := by
  constructor
  · intro h
    exact congrArg String.data h
  · intro h
    show (⟨Py.stripL s.data⟩ : String) = emptyS
    rw [h]
    rfl

theorem mem_joinSpL (c : Char) : ∀ (ps : List Py.Chars) (p : Py.Chars),
    p ∈ ps → c ∈ p → c ∈ Py.joinSpL ps := by
  intro ps
  induction ps with
  | nil =>
    intro p hp _
    exact absurd hp (List.not_mem_nil p)
  | cons x ys ih =>
    intro p hp hc
    cases ys with
    | nil =>
      rcases List.mem_cons.mp hp with rfl | hmem
      · simpa [Py.joinSpL] using hc
      · exact absurd hmem (List.not_mem_nil p)
    | cons y zs =>
      simp only [Py.joinSpL]
      rcases List.mem_cons.mp hp with rfl | hmem
      · exact List.mem_append_left _ hc
      · exact List.mem_append_right _ (List.mem_cons_of_mem _ (ih p hmem hc))

theorem strip_joinSp_ne (ts : List String) (t : String) (ht : t ∈ ts) (c : Char)
    (hc : c ∈ t.data) (hcs : Py.isSpace c = false) :
    ¬ Py.strip (Py.joinSp ts) = emptyS := by
  intro hcon
  rw [strip_eq_emptyS_iff] at hcon
  have hdata : (Py.joinSp ts).data = Py.joinSpL (ts.map String.data) := rfl
  rw [hdata, stripL_eq_nil_iff, List.all_eq_true] at hcon
  have hcj := mem_joinSpL c (ts.map String.data) t.data
    (List.mem_map_of_mem String.data ht) hc
  have hsp := hcon c hcj
  rw [hcs] at hsp
  exact Bool.false_ne_true hsp

/-! ### C2: the per-page slice and the blank-part test -/

theorem page_slice_map_strip (pg : Page) (sy : Q) (ey : Option Q) :
    (SectionSpans.page_slice pg sy ey).map (fun pe => Py.strip pe.2.text) =
      ((pg.elements.filter (RelevanceAnalyzer.in_y_range sy ey)).map
        (fun e => Py.strip e.text)).filter (fun t => !(decide (t = emptyS))) := by
  unfold SectionSpans.page_slice
  rw [List.map_map, List.filter_map]
  rfl

theorem eptfs_eq_joinSp_slice (pg : Page) (sy : Q) (ey : Option Q) :
    RelevanceAnalyzer.extract_page_text_for_section pg sy ey =
      Py.joinSp ((SectionSpans.page_slice pg sy ey).map (fun pe => Py.strip pe.2.text)) := by
  rw [page_slice_map_strip]
  rfl

theorem mem_page_slice (pg : Page) (sy : Q) (ey : Option Q) (p : Nat) (e : Element) :
    (p, e) ∈ SectionSpans.page_slice pg sy ey ↔
      p = pg.page_number ∧ e ∈ pg.elements ∧
        RelevanceAnalyzer.in_y_range sy ey e = true ∧ ¬ Py.strip e.text = emptyS := by
  unfold SectionSpans.page_slice
  simp only [List.mem_map, List.mem_filter, Prod.mk.injEq, Bool.not_eq_true',
    decide_eq_false_iff_not]
  constructor
  · rintro ⟨a, ⟨⟨ha, hr⟩, hs⟩, hp, he⟩
    exact ⟨hp.symm, he ▸ ha, he ▸ hr, he ▸ hs⟩
  · rintro ⟨hp, he, hr, hs⟩
    exact ⟨e, ⟨⟨he, hr⟩, hs⟩, hp.symm, rfl⟩

set_option maxHeartbeats 1000000 in
theorem strip_part_emptyS_iff (pg : Page) (sy : Q) (ey : Option Q) :
    (Py.strip (RelevanceAnalyzer.extract_page_text_for_section pg sy ey) = emptyS) ↔
      SectionSpans.page_slice pg sy ey = [] := by
  constructor
  · intro h
    by_contra hne
    obtain ⟨⟨p, e⟩, hmem⟩ := List.exists_mem_of_ne_nil _ hne
    obtain ⟨hp, he, hr, hs⟩ := (mem_page_slice pg sy ey p e).mp hmem
    have hstrip : ¬ Py.stripL e.text.data = [] := by
      intro h0
      exact hs ((strip_eq_emptyS_iff e.text).mpr h0)
    obtain ⟨c, hcm, hcs⟩ := nonspace_of_stripL_ne_nil _ hstrip
    rw [eptfs_eq_joinSp_slice] at h
    have hmm : Py.strip e.text ∈ (SectionSpans.page_slice pg sy ey).map
        (fun pe => Py.strip pe.2.text) :=
      List.mem_map_of_mem (fun pe => Py.strip pe.2.text) hmem
    have hcm' : c ∈ (Py.strip e.text).data := hcm
    exact strip_joinSp_ne ((SectionSpans.page_slice pg sy ey).map
      (fun pe => Py.strip pe.2.text)) (Py.strip e.text) hmm c hcm' hcs h
  · intro h
    rw [eptfs_eq_joinSp_slice, h]
    rfl

/-! ### C2: the range test against the lexicographic order -/

theorem ble_start_iff (sp : Nat) (sy : Q) (pg : Page) (e : Element)
    (hsp : sp ≤ pg.page_number) (hy : q0.le e.y_position) :
    (Q.ble (if pg.page_number = sp then sy else q0) e.y_position = true ↔
      SectionSpans.lexLe (sp, sy) (pg.page_number, e.y_position)) := by
  constructor
  · intro hble
    by_cases hps : pg.page_number = sp
    · rw [if_pos hps] at hble
      exact Or.inr ⟨hps.symm, of_decide_eq_true hble⟩
    · exact Or.inl (show sp < pg.page_number by omega)
  · intro hlex
    have hlex' : sp < pg.page_number ∨ (sp = pg.page_number ∧ sy.le e.y_position) := hlex
    by_cases hps : pg.page_number = sp
    · rw [if_pos hps]
      rcases hlex' with hlt | ⟨-, hle⟩
      · exact absurd hlt (by omega)
      · exact decide_eq_true hle
    · rw [if_neg hps]
      exact decide_eq_true hy

theorem in_y_range_iff_none (sp : Nat) (sy : Q) (pg : Page) (e : Element)
    (hsp : sp ≤ pg.page_number) (hy : q0.le e.y_position) :
    (RelevanceAnalyzer.in_y_range (if pg.page_number = sp then sy else q0) none e = true ↔
      SectionSpans.lexLe (sp, sy) (pg.page_number, e.y_position)) := by
  unfold RelevanceAnalyzer.in_y_range
  rw [Bool.and_eq_true, ble_start_iff sp sy pg e hsp hy]
  constructor
  · rintro ⟨h1, -⟩
    exact h1
  · intro h1
    exact ⟨h1, rfl⟩

theorem in_y_range_iff_some (sp : Nat) (sy : Q) (n : Heading) (pg : Page) (e : Element)
    (hsp : sp ≤ pg.page_number) (hbrk : ¬ n.page < pg.page_number) (hy : q0.le e.y_position) :
    (RelevanceAnalyzer.in_y_range (if pg.page_number = sp then sy else q0)
        (if pg.page_number = n.page then some n.y_position else none) e = true ↔
      (SectionSpans.lexLe (sp, sy) (pg.page_number, e.y_position) ∧
        SectionSpans.lexLt (pg.page_number, e.y_position) (n.page, n.y_position))) := by
  by_cases hpn : pg.page_number = n.page
  · rw [if_pos hpn]
    unfold RelevanceAnalyzer.in_y_range
    rw [Bool.and_eq_true, ble_start_iff sp sy pg e hsp hy]
    constructor
    · rintro ⟨h1, h2⟩
      exact ⟨h1, Or.inr ⟨hpn, of_decide_eq_true h2⟩⟩
    · rintro ⟨h1, h2⟩
      have h2' : pg.page_number < n.page ∨
          (pg.page_number = n.page ∧ e.y_position.lt n.y_position) := h2
      refine ⟨h1, ?_⟩
      rcases h2' with hlt | ⟨-, hlt⟩
      · exact absurd hlt (by omega)
      · exact decide_eq_true hlt
  · rw [if_neg hpn]
    unfold RelevanceAnalyzer.in_y_range
    rw [Bool.and_eq_true, ble_start_iff sp sy pg e hsp hy]
    constructor
    · rintro ⟨h1, -⟩
      exact ⟨h1, Or.inl (show pg.page_number < n.page by omega)⟩
    · rintro ⟨h1, -⟩
      exact ⟨h1, rfl⟩

/-! ### C2: one-step equations for the two page loops -/

theorem span_loop_step_skip (sp : Nat) (sy : Q) (next : Option Heading) (pg : Page)
    (rest : List Page) (h : pg.page_number < sp) :
    SectionSpans.span_pages_loop sp sy next (pg :: rest) =
      SectionSpans.span_pages_loop sp sy next rest := by
  simp only [SectionSpans.span_pages_loop]
  rw [if_pos h]

theorem span_loop_step_break (sp : Nat) (sy : Q) (n : Heading) (pg : Page)
    (rest : List Page) (h1 : ¬ pg.page_number < sp) (h2 : n.page < pg.page_number) :
    SectionSpans.span_pages_loop sp sy (some n) (pg :: rest) = [] := by
  simp only [SectionSpans.span_pages_loop]
  rw [if_neg h1, if_pos (decide_eq_true h2)]

theorem span_loop_none_step (sp : Nat) (sy : Q) (pg : Page) (rest : List Page)
    (h : ¬ pg.page_number < sp) :
    SectionSpans.span_pages_loop sp sy none (pg :: rest) =
      (if Py.strip (RelevanceAnalyzer.extract_page_text_for_section pg
          (if pg.page_number = sp then sy else q0) none) = emptyS then
        SectionSpans.span_pages_loop sp sy none rest
      else SectionSpans.page_slice pg (if pg.page_number = sp then sy else q0) none ::
        SectionSpans.span_pages_loop sp sy none rest) := by
  simp only [SectionSpans.span_pages_loop]
  rw [if_neg h, if_neg Bool.false_ne_true]

theorem span_loop_some_step (sp : Nat) (sy : Q) (n : Heading) (pg : Page) (rest : List Page)
    (h1 : ¬ pg.page_number < sp) (h2 : ¬ n.page < pg.page_number) :
    SectionSpans.span_pages_loop sp sy (some n) (pg :: rest) =
      (if Py.strip (RelevanceAnalyzer.extract_page_text_for_section pg
          (if pg.page_number = sp then sy else q0)
          (if pg.page_number = n.page then some n.y_position else none)) = emptyS then
        SectionSpans.span_pages_loop sp sy (some n) rest
      else SectionSpans.page_slice pg (if pg.page_number = sp then sy else q0)
          (if pg.page_number = n.page then some n.y_position else none) ::
        SectionSpans.span_pages_loop sp sy (some n) rest) := by
  simp only [SectionSpans.span_pages_loop]
  rw [if_neg h1, if_neg (fun hcon => h2 (of_decide_eq_true hcon))]

theorem content_loop_step_skip (sp : Nat) (sy : Q) (next : Option Heading) (pg : Page)
    (rest : List Page) (h : pg.page_number < sp) :
    RelevanceAnalyzer.section_content_loop sp sy next (pg :: rest) =
      RelevanceAnalyzer.section_content_loop sp sy next rest := by
  simp only [RelevanceAnalyzer.section_content_loop]
  rw [if_pos h]

theorem content_loop_step_break (sp : Nat) (sy : Q) (n : Heading) (pg : Page)
    (rest : List Page) (h1 : ¬ pg.page_number < sp) (h2 : n.page < pg.page_number) :
    RelevanceAnalyzer.section_content_loop sp sy (some n) (pg :: rest) = [] := by
  simp only [RelevanceAnalyzer.section_content_loop]
  rw [if_neg h1, if_pos (decide_eq_true h2)]

theorem content_loop_none_step (sp : Nat) (sy : Q) (pg : Page) (rest : List Page)
    (h : ¬ pg.page_number < sp) :
    RelevanceAnalyzer.section_content_loop sp sy none (pg :: rest) =
      (if Py.strip (RelevanceAnalyzer.extract_page_text_for_section pg
          (if pg.page_number = sp then sy else q0) none) = emptyS then
        RelevanceAnalyzer.section_content_loop sp sy none rest
      else RelevanceAnalyzer.extract_page_text_for_section pg
          (if pg.page_number = sp then sy else q0) none ::
        RelevanceAnalyzer.section_content_loop sp sy none rest) := by
  simp only [RelevanceAnalyzer.section_content_loop]
  rw [if_neg h, if_neg Bool.false_ne_true]

theorem content_loop_some_step (sp : Nat) (sy : Q) (n : Heading) (pg : Page)
    (rest : List Page) (h1 : ¬ pg.page_number < sp) (h2 : ¬ n.page < pg.page_number) :
    RelevanceAnalyzer.section_content_loop sp sy (some n) (pg :: rest) =
      (if Py.strip (RelevanceAnalyzer.extract_page_text_for_section pg
          (if pg.page_number = sp then sy else q0)
          (if pg.page_number = n.page then some n.y_position else none)) = emptyS then
        RelevanceAnalyzer.section_content_loop sp sy (some n) rest
      else RelevanceAnalyzer.extract_page_text_for_section pg
          (if pg.page_number = sp then sy else q0)
          (if pg.page_number = n.page then some n.y_position else none) ::
        RelevanceAnalyzer.section_content_loop sp sy (some n) rest) := by
  simp only [RelevanceAnalyzer.section_content_loop]
  rw [if_neg h1, if_neg (fun hcon => h2 (of_decide_eq_true hcon))]

/-! ### C2: membership characterisation of the span loop -/

theorem span_loop_mem_none (sp : Nat) (sy : Q) :
    ∀ (pages : List Page),
      List.Pairwise (fun a b => a.page_number < b.page_number) pages →
      (∀ pg ∈ pages, ∀ e ∈ pg.elements, q0.le e.y_position) →
      ∀ (p : Nat) (e : Element),
        ((p, e) ∈ (SectionSpans.span_pages_loop sp sy none pages).flatten ↔
          ∃ pg ∈ pages, pg.page_number = p ∧ e ∈ pg.elements ∧
            ¬ Py.strip e.text = emptyS ∧
            SectionSpans.lexLe (sp, sy) (p, e.y_position)) := by
  intro pages
  induction pages with
  | nil =>
    intro _ _ p e
    constructor
    · intro hmem
      simp [SectionSpans.span_pages_loop] at hmem
    · rintro ⟨pg, hm, -⟩
      exact absurd hm (List.not_mem_nil pg)
  | cons pg rest ih =>
    intro hpw hy p e
    obtain ⟨hhd, htl⟩ := List.pairwise_cons.mp hpw
    have hytl : ∀ pg' ∈ rest, ∀ e' ∈ pg'.elements, q0.le e'.y_position :=
      fun pg' h' => hy pg' (List.mem_cons_of_mem _ h')
    have ihr := ih htl hytl p e
    by_cases hskip : pg.page_number < sp
    · rw [span_loop_step_skip sp sy none pg rest hskip, ihr]
      constructor
      · rintro ⟨pg', hm, hrest⟩
        exact ⟨pg', List.mem_cons_of_mem _ hm, hrest⟩
      · rintro ⟨pg', hm, hnum, hmem, hstrip, hle⟩
        rcases List.mem_cons.mp hm with rfl | hm'
        · exfalso
          have hle' : sp < p ∨ (sp = p ∧ sy.le e.y_position) := hle
          rcases hle' with hlt | ⟨heq, -⟩
          · omega
          · omega
        · exact ⟨pg', hm', hnum, hmem, hstrip, hle⟩
    · have hsp : sp ≤ pg.page_number := Nat.le_of_not_lt hskip
      rw [span_loop_none_step sp sy pg rest hskip]
      by_cases hkeep : Py.strip (RelevanceAnalyzer.extract_page_text_for_section pg
          (if pg.page_number = sp then sy else q0) none) = emptyS
      · rw [if_pos hkeep, ihr]
        have hslice : SectionSpans.page_slice pg
            (if pg.page_number = sp then sy else q0) none = [] :=
          (strip_part_emptyS_iff pg _ none).mp hkeep
        constructor
        · rintro ⟨pg', hm, hrest⟩
          exact ⟨pg', List.mem_cons_of_mem _ hm, hrest⟩
        · rintro ⟨pg', hm, hnum, hmem, hstrip, hle⟩
          rcases List.mem_cons.mp hm with rfl | hm'
          · exfalso
            subst hnum
            have hin : (pg'.page_number, e) ∈ SectionSpans.page_slice pg'
                (if pg'.page_number = sp then sy else q0) none := by
              rw [mem_page_slice]
              exact ⟨rfl, hmem,
                (in_y_range_iff_none sp sy pg' e hsp
                  (hy pg' (List.mem_cons_self _ _) e hmem)).mpr hle, hstrip⟩
            rw [hslice] at hin
            exact absurd hin (List.not_mem_nil _)
          · exact ⟨pg', hm', hnum, hmem, hstrip, hle⟩
      · rw [if_neg hkeep, List.flatten_cons, List.mem_append, ihr]
        constructor
        · rintro (hsl | ⟨pg', hm, hrest⟩)
          · obtain ⟨hp, hmem, hr, hstrip⟩ := (mem_page_slice pg _ none p e).mp hsl
            subst hp
            exact ⟨pg, List.mem_cons_self _ _, rfl, hmem, hstrip,
              (in_y_range_iff_none sp sy pg e hsp
                (hy pg (List.mem_cons_self _ _) e hmem)).mp hr⟩
          · exact ⟨pg', List.mem_cons_of_mem _ hm, hrest⟩
        · rintro ⟨pg', hm, hnum, hmem, hstrip, hle⟩
          rcases List.mem_cons.mp hm with rfl | hm'
          · left
            subst hnum
            rw [mem_page_slice]
            exact ⟨rfl, hmem,
              (in_y_range_iff_none sp sy pg' e hsp
                (hy pg' (List.mem_cons_self _ _) e hmem)).mpr hle, hstrip⟩
          · right
            exact ⟨pg', hm', hnum, hmem, hstrip, hle⟩

theorem span_loop_mem_some (sp : Nat) (sy : Q) (n : Heading) :
    ∀ (pages : List Page),
      List.Pairwise (fun a b => a.page_number < b.page_number) pages →
      (∀ pg ∈ pages, ∀ e ∈ pg.elements, q0.le e.y_position) →
      ∀ (p : Nat) (e : Element),
        ((p, e) ∈ (SectionSpans.span_pages_loop sp sy (some n) pages).flatten ↔
          ∃ pg ∈ pages, pg.page_number = p ∧ e ∈ pg.elements ∧
            ¬ Py.strip e.text = emptyS ∧
            SectionSpans.lexLe (sp, sy) (p, e.y_position) ∧
            SectionSpans.lexLt (p, e.y_position) (n.page, n.y_position)) := by
  intro pages
  induction pages with
  | nil =>
    intro _ _ p e
    constructor
    · intro hmem
      simp [SectionSpans.span_pages_loop] at hmem
    · rintro ⟨pg, hm, -⟩
      exact absurd hm (List.not_mem_nil pg)
  | cons pg rest ih =>
    intro hpw hy p e
    obtain ⟨hhd, htl⟩ := List.pairwise_cons.mp hpw
    have hytl : ∀ pg' ∈ rest, ∀ e' ∈ pg'.elements, q0.le e'.y_position :=
      fun pg' h' => hy pg' (List.mem_cons_of_mem _ h')
    have ihr := ih htl hytl p e
    by_cases hskip : pg.page_number < sp
    · rw [span_loop_step_skip sp sy (some n) pg rest hskip, ihr]
      constructor
      · rintro ⟨pg', hm, hrest⟩
        exact ⟨pg', List.mem_cons_of_mem _ hm, hrest⟩
      · rintro ⟨pg', hm, hnum, hmem, hstrip, hle, hlt⟩
        rcases List.mem_cons.mp hm with rfl | hm'
        · exfalso
          have hle' : sp < p ∨ (sp = p ∧ sy.le e.y_position) := hle
          rcases hle' with hlt' | ⟨heq, -⟩
          · omega
          · omega
        · exact ⟨pg', hm', hnum, hmem, hstrip, hle, hlt⟩
    · have hsp : sp ≤ pg.page_number := Nat.le_of_not_lt hskip
      by_cases hbrk : n.page < pg.page_number
      · rw [span_loop_step_break sp sy n pg rest hskip hbrk]
        constructor
        · intro hmem
          simp at hmem
        · rintro ⟨pg', hm, hnum, hmem, hstrip, hle, hlt⟩
          exfalso
          have hlt' : p < n.page ∨ (p = n.page ∧ e.y_position.lt n.y_position) := hlt
          rcases List.mem_cons.mp hm with rfl | hm'
          · rcases hlt' with h' | ⟨h', -⟩
            · omega
            · omega
          · have hgt := hhd pg' hm'
            rcases hlt' with h' | ⟨h', -⟩
            · omega
            · omega
      · rw [span_loop_some_step sp sy n pg rest hskip hbrk]
        by_cases hkeep : Py.strip (RelevanceAnalyzer.extract_page_text_for_section pg
            (if pg.page_number = sp then sy else q0)
            (if pg.page_number = n.page then some n.y_position else none)) = emptyS
        · rw [if_pos hkeep, ihr]
          have hslice : SectionSpans.page_slice pg
              (if pg.page_number = sp then sy else q0)
              (if pg.page_number = n.page then some n.y_position else none) = [] :=
            (strip_part_emptyS_iff pg _ _).mp hkeep
          constructor
          · rintro ⟨pg', hm, hrest⟩
            exact ⟨pg', List.mem_cons_of_mem _ hm, hrest⟩
          · rintro ⟨pg', hm, hnum, hmem, hstrip, hle, hlt⟩
            rcases List.mem_cons.mp hm with rfl | hm'
            · exfalso
              subst hnum
              have hin : (pg'.page_number, e) ∈ SectionSpans.page_slice pg'
                  (if pg'.page_number = sp then sy else q0)
                  (if pg'.page_number = n.page then some n.y_position else none) := by
                rw [mem_page_slice]
                exact ⟨rfl, hmem,
                  (in_y_range_iff_some sp sy n pg' e hsp hbrk
                    (hy pg' (List.mem_cons_self _ _) e hmem)).mpr ⟨hle, hlt⟩, hstrip⟩
              rw [hslice] at hin
              exact absurd hin (List.not_mem_nil _)
            · exact ⟨pg', hm', hnum, hmem, hstrip, hle, hlt⟩
        · rw [if_neg hkeep, List.flatten_cons, List.mem_append, ihr]
          constructor
          · rintro (hsl | ⟨pg', hm, hrest⟩)
            · obtain ⟨hp, hmem, hr, hstrip⟩ := (mem_page_slice pg _ _ p e).mp hsl
              subst hp
              obtain ⟨hle, hlt⟩ :=
                (in_y_range_iff_some sp sy n pg e hsp hbrk
                  (hy pg (List.mem_cons_self _ _) e hmem)).mp hr
              exact ⟨pg, List.mem_cons_self _ _, rfl, hmem, hstrip, hle, hlt⟩
            · exact ⟨pg', List.mem_cons_of_mem _ hm, hrest⟩
          · rintro ⟨pg', hm, hnum, hmem, hstrip, hle, hlt⟩
            rcases List.mem_cons.mp hm with rfl | hm'
            · left
              subst hnum
              rw [mem_page_slice]
              exact ⟨rfl, hmem,
                (in_y_range_iff_some sp sy n pg' e hsp hbrk
                  (hy pg' (List.mem_cons_self _ _) e hmem)).mpr ⟨hle, hlt⟩, hstrip⟩
            · right
              exact ⟨pg', hm', hnum, hmem, hstrip, hle, hlt⟩

/-! ### C2: the two loops keep or drop pages in lockstep -/

theorem content_loop_nil_imp_span_nil (sp : Nat) (sy : Q) (next : Option Heading) :
    ∀ pages : List Page,
      RelevanceAnalyzer.section_content_loop sp sy next pages = [] →
      SectionSpans.span_pages_loop sp sy next pages = [] := by
  intro pages
  induction pages with
  | nil =>
    intro _
    rfl
  | cons pg rest ih =>
    intro h
    by_cases hskip : pg.page_number < sp
    · rw [content_loop_step_skip sp sy next pg rest hskip] at h
      rw [span_loop_step_skip sp sy next pg rest hskip]
      exact ih h
    · cases next with
      | none =>
        rw [content_loop_none_step sp sy pg rest hskip] at h
        rw [span_loop_none_step sp sy pg rest hskip]
        by_cases hk : Py.strip (RelevanceAnalyzer.extract_page_text_for_section pg
            (if pg.page_number = sp then sy else q0) none) = emptyS
        · rw [if_pos hk] at h
          rw [if_pos hk]
          exact ih h
        · rw [if_neg hk] at h
          exact absurd h (List.cons_ne_nil _ _)
      | some n =>
        by_cases hbrk : n.page < pg.page_number
        · exact span_loop_step_break sp sy n pg rest hskip hbrk
        · rw [content_loop_some_step sp sy n pg rest hskip hbrk] at h
          rw [span_loop_some_step sp sy n pg rest hskip hbrk]
          by_cases hk : Py.strip (RelevanceAnalyzer.extract_page_text_for_section pg
              (if pg.page_number = sp then sy else q0)
              (if pg.page_number = n.page then some n.y_position else none)) = emptyS
          · rw [if_pos hk] at h
            rw [if_pos hk]
            exact ih h
          · rw [if_neg hk] at h
            exact absurd h (List.cons_ne_nil _ _)

theorem content_loop_parts_nonblank (sp : Nat) (sy : Q) (next : Option Heading) :
    ∀ (pages : List Page) (t : String),
      t ∈ RelevanceAnalyzer.section_content_loop sp sy next pages →
      ¬ Py.strip t = emptyS := by
  intro pages
  induction pages with
  | nil =>
    intro t ht
    exact absurd ht (List.not_mem_nil t)
  | cons pg rest ih =>
    intro t ht
    by_cases hskip : pg.page_number < sp
    · rw [content_loop_step_skip sp sy next pg rest hskip] at ht
      exact ih t ht
    · cases next with
      | none =>
        rw [content_loop_none_step sp sy pg rest hskip] at ht
        by_cases hk : Py.strip (RelevanceAnalyzer.extract_page_text_for_section pg
            (if pg.page_number = sp then sy else q0) none) = emptyS
        · rw [if_pos hk] at ht
          exact ih t ht
        · rw [if_neg hk] at ht
          rcases List.mem_cons.mp ht with rfl | ht'
          · exact hk
          · exact ih t ht'
      | some n =>
        by_cases hbrk : n.page < pg.page_number
        · rw [content_loop_step_break sp sy n pg rest hskip hbrk] at ht
          exact absurd ht (List.not_mem_nil t)
        · rw [content_loop_some_step sp sy n pg rest hskip hbrk] at ht
          by_cases hk : Py.strip (RelevanceAnalyzer.extract_page_text_for_section pg
              (if pg.page_number = sp then sy else q0)
              (if pg.page_number = n.page then some n.y_position else none)) = emptyS
          · rw [if_pos hk] at ht
            exact ih t ht
          · rw [if_neg hk] at ht
            rcases List.mem_cons.mp ht with rfl | ht'
            · exact hk
            · exact ih t ht'

theorem content_nonblank_of_span_mem (sp : Nat) (sy : Q) (next : Option Heading)
    (pages : List Page) (pe : Nat × Element)
    (h : pe ∈ (SectionSpans.span_pages_loop sp sy next pages).flatten) :
    ¬ Py.strip (Py.joinSp (RelevanceAnalyzer.section_content_loop sp sy next pages))
        = emptyS := by
  have hspan_ne : SectionSpans.span_pages_loop sp sy next pages ≠ [] := by
    intro h0
    rw [h0] at h
    exact absurd h (List.not_mem_nil pe)
  have hparts_ne : RelevanceAnalyzer.section_content_loop sp sy next pages ≠ [] := by
    intro h0
    exact hspan_ne (content_loop_nil_imp_span_nil sp sy next pages h0)
  obtain ⟨t, htm⟩ := List.exists_mem_of_ne_nil _ hparts_ne
  have hts := content_loop_parts_nonblank sp sy next pages t htm
  have hstrip : ¬ Py.stripL t.data = [] := by
    intro h0
    exact hts ((strip_eq_emptyS_iff t).mpr h0)
  obtain ⟨c, hcm, hcs⟩ := nonspace_of_stripL_ne_nil _ hstrip
  exact strip_joinSp_ne _ t htm c ((stripL_sublist t.data).subset hcm) hcs

/-! ### C2: evaluating the section builders when all headings share a level -/

theorem find_next_equal_levels (L : String) (nl : Int)
    (hn : RelevanceAnalyzer.levelIntE L = Except.ok nl) :
    ∀ rest : List Heading, (∀ h ∈ rest, h.level = some L) →
      RelevanceAnalyzer.find_next_heading nl rest = Except.ok rest.head? := by
  intro rest hrest
  cases rest with
  | nil => rfl
  | cons h t =>
    show Bind.bind (RelevanceAnalyzer.levelIntE ((h.level).getD "H1")) _ = _
    rw [hrest h (List.mem_cons_self _ _), Option.getD_some, hn]
    simp only [Bind.bind, Except.bind]
    rw [if_pos (le_refl nl)]
    rfl

theorem section_span_eval (L : String) (nl : Int)
    (hn : RelevanceAnalyzer.levelIntE L = Except.ok nl)
    (cur : Heading) (hcur : cur.level = some L)
    (rest : List Heading) (hrest : ∀ h ∈ rest, h.level = some L)
    (pages : List Page) :
    SectionSpans.section_span cur rest pages =
      Except.ok ((SectionSpans.span_pages_loop cur.page cur.y_position rest.head?
        pages).flatten) := by
  unfold SectionSpans.section_span
  rw [hcur, Option.getD_some, hn]
  simp only [Bind.bind, Except.bind]
  rw [find_next_equal_levels L nl hn rest hrest]
  rfl

theorem extract_section_content_eval (L : String) (nl : Int)
    (hn : RelevanceAnalyzer.levelIntE L = Except.ok nl)
    (cur : Heading) (hcur : cur.level = some L)
    (rest : List Heading) (hrest : ∀ h ∈ rest, h.level = some L)
    (pages : List Page) :
    RelevanceAnalyzer.extract_section_content cur rest pages =
      Except.ok (Py.joinSp (RelevanceAnalyzer.section_content_loop cur.page cur.y_position
        rest.head? pages)) := by
  unfold RelevanceAnalyzer.extract_section_content
  rw [hcur, Option.getD_some, hn]
  simp only [Bind.bind, Except.bind]
  rw [find_next_equal_levels L nl hn rest hrest]
  rfl

theorem spans_of_headings_cons_inv (L : String) (nl : Int)
    (hn : RelevanceAnalyzer.levelIntE L = Except.ok nl)
    (pages : List Page) (h : Heading) (rest : List Heading)
    (spans : List (List (Nat × Element)))
    (hh : h.level = some L) (hrest : ∀ x ∈ rest, x.level = some L)
    (hok : SectionSpans.spans_of_headings pages (h :: rest) = Except.ok spans) :
    ∃ tl, SectionSpans.spans_of_headings pages rest = Except.ok tl ∧
      spans = (if Py.strip (Py.joinSp (RelevanceAnalyzer.section_content_loop h.page
          h.y_position rest.head? pages)) = emptyS
        then tl
        else (SectionSpans.span_pages_loop h.page h.y_position rest.head? pages).flatten
          :: tl) := by
  unfold SectionSpans.spans_of_headings at hok
  rw [extract_section_content_eval L nl hn h hh rest hrest pages] at hok
  simp only [Bind.bind, Except.bind] at hok
  rw [section_span_eval L nl hn h hh rest hrest pages] at hok
  obtain ⟨tl, htl, hfin⟩ := except_bind_ok hok
  refine ⟨tl, htl, ?_⟩
  simp only [Pure.pure, Except.pure, Except.ok.injEq] at hfin
  exact hfin.symm

/-! ### C2: bounds, disjointness and coverage of the produced spans -/

theorem spans_lb (L : String) (nl : Int)
    (hn : RelevanceAnalyzer.levelIntE L = Except.ok nl) (pages : List Page)
    (hpw : List.Pairwise (fun a b => a.page_number < b.page_number) pages)
    (hy : ∀ pg ∈ pages, ∀ e ∈ pg.elements, q0.le e.y_position) :
    ∀ (hs : List Heading) (spans : List (List (Nat × Element))),
      (∀ x ∈ hs, x.level = some L) →
      SectionSpans.spans_of_headings pages hs = Except.ok spans →
      ∀ s ∈ spans, ∀ pe ∈ s, ∃ h' ∈ hs,
        SectionSpans.lexLe (SectionSpans.headingStart h') (SectionSpans.elemPos pe) := by
  intro hs
  induction hs with
  | nil =>
    intro spans _ hok s hsm
    have hsp : ([] : List (List (Nat × Element))) = spans := Except.ok.inj hok
    rw [← hsp] at hsm
    exact absurd hsm (List.not_mem_nil s)
  | cons h rest ih =>
    intro spans hlev hok s hsm pe hpe
    have hrest : ∀ x ∈ rest, x.level = some L :=
      fun x hx => hlev x (List.mem_cons_of_mem _ hx)
    obtain ⟨tl, htl, rfl⟩ := spans_of_headings_cons_inv L nl hn pages h rest spans
      (hlev h (List.mem_cons_self _ _)) hrest hok
    by_cases hk : Py.strip (Py.joinSp (RelevanceAnalyzer.section_content_loop h.page
        h.y_position rest.head? pages)) = emptyS
    · rw [if_pos hk] at hsm
      obtain ⟨h', hm', hle⟩ := ih tl hrest htl s hsm pe hpe
      exact ⟨h', List.mem_cons_of_mem _ hm', hle⟩
    · rw [if_neg hk] at hsm
      rcases List.mem_cons.mp hsm with rfl | hsm'
      · obtain ⟨p, e⟩ := pe
        cases rest with
        | nil =>
          simp only [List.head?_nil] at hpe
          obtain ⟨pg, hmg, hnum, hmem, hstrip, hle⟩ :=
            (span_loop_mem_none h.page h.y_position pages hpw hy p e).mp hpe
          exact ⟨h, List.mem_cons_self _ _, hle⟩
        | cons h1 rest' =>
          simp only [List.head?_cons] at hpe
          obtain ⟨pg, hmg, hnum, hmem, hstrip, hle, -⟩ :=
            (span_loop_mem_some h.page h.y_position h1 pages hpw hy p e).mp hpe
          exact ⟨h, List.mem_cons_self _ _, hle⟩
      · obtain ⟨h', hm', hle⟩ := ih tl hrest htl s hsm' pe hpe
        exact ⟨h', List.mem_cons_of_mem _ hm', hle⟩

theorem spans_pairwise_disjoint (L : String) (nl : Int)
    (hn : RelevanceAnalyzer.levelIntE L = Except.ok nl) (pages : List Page)
    (hpw : List.Pairwise (fun a b => a.page_number < b.page_number) pages)
    (hy : ∀ pg ∈ pages, ∀ e ∈ pg.elements, q0.le e.y_position) :
    ∀ (hs : List Heading) (spans : List (List (Nat × Element))),
      (∀ x ∈ hs, x.level = some L) →
      List.Pairwise (fun a b => SectionSpans.lexLe (SectionSpans.headingStart a)
        (SectionSpans.headingStart b)) hs →
      SectionSpans.spans_of_headings pages hs = Except.ok spans →
      List.Pairwise (fun s t => ∀ pe, pe ∈ s → pe ∉ t) spans := by
  intro hs
  induction hs with
  | nil =>
    intro spans _ _ hok
    have hsp : ([] : List (List (Nat × Element))) = spans := Except.ok.inj hok
    rw [← hsp]
    exact List.Pairwise.nil
  | cons h rest ih =>
    intro spans hlev hsort hok
    have hrest : ∀ x ∈ rest, x.level = some L :=
      fun x hx => hlev x (List.mem_cons_of_mem _ hx)
    have hsort' := (List.pairwise_cons.mp hsort).2
    obtain ⟨tl, htl, rfl⟩ := spans_of_headings_cons_inv L nl hn pages h rest spans
      (hlev h (List.mem_cons_self _ _)) hrest hok
    have hptl := ih tl hrest hsort' htl
    by_cases hk : Py.strip (Py.joinSp (RelevanceAnalyzer.section_content_loop h.page
        h.y_position rest.head? pages)) = emptyS
    · rw [if_pos hk]
      exact hptl
    · rw [if_neg hk]
      refine List.pairwise_cons.mpr ⟨?_, hptl⟩
      intro t htm pe hpe hpet
      obtain ⟨p, e⟩ := pe
      cases rest with
      | nil =>
        have htl0 : ([] : List (List (Nat × Element))) = tl := Except.ok.inj htl
        rw [← htl0] at htm
        exact absurd htm (List.not_mem_nil t)
      | cons h1 rest' =>
        simp only [List.head?_cons] at hpe
        obtain ⟨-, -, -, -, -, -, hlt⟩ :=
          (span_loop_mem_some h.page h.y_position h1 pages hpw hy p e).mp hpe
        obtain ⟨h', hm', hlb⟩ := spans_lb L nl hn pages hpw hy (h1 :: rest') tl hrest htl
          t htm (p, e) hpet
        have h1le : SectionSpans.lexLe (SectionSpans.headingStart h1)
            (SectionSpans.headingStart h') := by
          rcases List.mem_cons.mp hm' with rfl | hm''
          · exact lexLe_refl _
          · exact (List.pairwise_cons.mp hsort').1 h' hm''
        exact lexLt_not_lexLe hlt (lexLe_trans h1le hlb)

theorem spans_cover (L : String) (nl : Int)
    (hn : RelevanceAnalyzer.levelIntE L = Except.ok nl) (pages : List Page)
    (hpw : List.Pairwise (fun a b => a.page_number < b.page_number) pages)
    (hy : ∀ pg ∈ pages, ∀ e ∈ pg.elements, q0.le e.y_position) :
    ∀ (hs : List Heading) (spans : List (List (Nat × Element))) (h0 : Heading)
      (rest0 : List Heading),
      hs = h0 :: rest0 →
      (∀ x ∈ hs, x.level = some L) →
      List.Pairwise (fun a b => SectionSpans.lexLe (SectionSpans.headingStart a)
        (SectionSpans.headingStart b)) hs →
      SectionSpans.spans_of_headings pages hs = Except.ok spans →
      ∀ pg ∈ pages, ∀ e ∈ pg.elements, ¬ Py.strip e.text = emptyS →
        SectionSpans.lexLe (SectionSpans.headingStart h0) (pg.page_number, e.y_position) →
        ∃ s ∈ spans, (pg.page_number, e) ∈ s := by
  intro hs
  induction hs with
  | nil =>
    intro spans h0 rest0 heq
    exact absurd heq.symm (List.cons_ne_nil h0 rest0)
  | cons h rest ih =>
    intro spans h0 rest0 heq hlev hsort hok pg hpg e he hstrip hstart
    injection heq with heq1 heq2
    subst heq1
    subst heq2
    have hrest : ∀ x ∈ rest, x.level = some L :=
      fun x hx => hlev x (List.mem_cons_of_mem _ hx)
    obtain ⟨tl, htl, rfl⟩ := spans_of_headings_cons_inv L nl hn pages h rest spans
      (hlev h (List.mem_cons_self _ _)) hrest hok
    cases rest with
    | nil =>
      simp only [List.head?_nil]
      have hmem : (pg.page_number, e) ∈ (SectionSpans.span_pages_loop h.page h.y_position
          none pages).flatten :=
        (span_loop_mem_none h.page h.y_position pages hpw hy pg.page_number e).mpr
          ⟨pg, hpg, rfl, he, hstrip, hstart⟩
      have hkeep := content_nonblank_of_span_mem h.page h.y_position none pages
        (pg.page_number, e) hmem
      rw [if_neg hkeep]
      exact ⟨_, List.mem_cons_self _ _, hmem⟩
    | cons h1 rest' =>
      simp only [List.head?_cons]
      by_cases hcase : SectionSpans.lexLt (pg.page_number, e.y_position)
          (SectionSpans.headingStart h1)
      · have hmem : (pg.page_number, e) ∈ (SectionSpans.span_pages_loop h.page
            h.y_position (some h1) pages).flatten :=
          (span_loop_mem_some h.page h.y_position h1 pages hpw hy pg.page_number e).mpr
            ⟨pg, hpg, rfl, he, hstrip, hstart, hcase⟩
        have hkeep := content_nonblank_of_span_mem h.page h.y_position (some h1) pages
          (pg.page_number, e) hmem
        rw [if_neg hkeep]
        exact ⟨_, List.mem_cons_self _ _, hmem⟩
      · have hstart' : SectionSpans.lexLe (SectionSpans.headingStart h1)
            (pg.page_number, e.y_position) := lexLe_of_not_lexLt hcase
        have hsort' := (List.pairwise_cons.mp hsort).2
        obtain ⟨s, hsm, hpes⟩ := ih tl h1 rest' rfl hrest hsort' htl pg hpg e he hstrip
          hstart'
        by_cases hk : Py.strip (Py.joinSp (RelevanceAnalyzer.section_content_loop h.page
            h.y_position (some h1) pages)) = emptyS
        · rw [if_pos hk]
          exact ⟨s, hsm, hpes⟩
        · rw [if_neg hk]
          exact ⟨s, List.mem_cons_of_mem _ hsm, hpes⟩

/-! ### C2: the heading-less per-page fallback spans -/

theorem headless_spans_eq (pages : List Page) :
    (pages.enum.filterMap (fun ip =>
      let page_text := RelevanceAnalyzer.extract_page_text ip.2
      if Py.strip page_text = emptyS then none
      else
        some ((ip.2.elements.filter (fun e => !(decide (Py.strip e.text = emptyS)))).map
          (fun e => (ip.2.page_number, e))))) =
    pages.filterMap (fun pg =>
      if Py.strip (RelevanceAnalyzer.extract_page_text pg) = emptyS then none
      else
        some ((pg.elements.filter (fun e => !(decide (Py.strip e.text = emptyS)))).map
          (fun e => (pg.page_number, e)))) := by
  conv_rhs => rw [← List.enum_map_snd pages]
  rw [List.filterMap_map]
  rfl

theorem headless_pairwise (pages : List Page)
    (hpw : List.Pairwise (fun a b => a.page_number < b.page_number) pages) :
    List.Pairwise (fun s t => ∀ pe, pe ∈ s → pe ∉ t)
      (pages.filterMap (fun pg =>
        if Py.strip (RelevanceAnalyzer.extract_page_text pg) = emptyS then none
        else
          some ((pg.elements.filter (fun e => !(decide (Py.strip e.text = emptyS)))).map
            (fun e => (pg.page_number, e))))) := by
  induction pages with
  | nil => exact List.Pairwise.nil
  | cons pg rest ih =>
    obtain ⟨hhd, htl⟩ := List.pairwise_cons.mp hpw
    simp only [List.filterMap_cons]
    by_cases hk : Py.strip (RelevanceAnalyzer.extract_page_text pg) = emptyS
    · rw [if_pos hk]
      exact ih htl
    · rw [if_neg hk]
      show List.Pairwise (fun s t => ∀ pe, pe ∈ s → pe ∉ t)
        (((pg.elements.filter (fun e => !(decide (Py.strip e.text = emptyS)))).map
          (fun e => (pg.page_number, e))) :: rest.filterMap (fun pg' =>
            if Py.strip (RelevanceAnalyzer.extract_page_text pg') = emptyS then none
            else
              some ((pg'.elements.filter
                  (fun e => !(decide (Py.strip e.text = emptyS)))).map
                (fun e => (pg'.page_number, e)))))
      refine List.pairwise_cons.mpr ⟨?_, ih htl⟩
      intro t htm pe hpes hpet
      obtain ⟨pg', hpg', hfm⟩ := List.mem_filterMap.mp htm
      by_cases hk' : Py.strip (RelevanceAnalyzer.extract_page_text pg') = emptyS
      · rw [if_pos hk'] at hfm
        exact Option.noConfusion hfm
      · rw [if_neg hk'] at hfm
        have ht := Option.some.inj hfm
        rw [← ht] at hpet
        obtain ⟨e1, -, hpe1⟩ := List.mem_map.mp hpes
        obtain ⟨e2, -, hpe2⟩ := List.mem_map.mp hpet
        have h1 : pg.page_number = pe.1 := congrArg Prod.fst hpe1
        have h2 : pg'.page_number = pe.1 := congrArg Prod.fst hpe2
        have h3 := hhd pg' hpg'
        omega

set_option maxHeartbeats 1000000 in
theorem headless_cover (pages : List Page) (pg : Page) (hpg : pg ∈ pages) (e : Element)
    (he : e ∈ pg.elements) (hstrip : ¬ Py.strip e.text = emptyS) :
    ∃ s ∈ pages.filterMap (fun pg' =>
        if Py.strip (RelevanceAnalyzer.extract_page_text pg') = emptyS then none
        else
          some ((pg'.elements.filter (fun x => !(decide (Py.strip x.text = emptyS)))).map
            (fun x => (pg'.page_number, x)))),
      (pg.page_number, e) ∈ s := by
  refine ⟨(pg.elements.filter (fun x => !(decide (Py.strip x.text = emptyS)))).map
    (fun x => (pg.page_number, x)), ?_, ?_⟩
  · apply List.mem_filterMap.mpr
    refine ⟨pg, hpg, ?_⟩
    have hne : ¬ Py.strip (RelevanceAnalyzer.extract_page_text pg) = emptyS := by
      have hneq : ¬ Py.stripL e.text.data = [] := by
        intro h0
        exact hstrip ((strip_eq_emptyS_iff e.text).mpr h0)
      obtain ⟨c, hcm, hcs⟩ := nonspace_of_stripL_ne_nil _ hneq
      have hcm' : c ∈ (Py.strip e.text).data := hcm
      unfold RelevanceAnalyzer.extract_page_text
      refine strip_joinSp_ne _ (Py.strip e.text) ?_ c hcm' hcs
      apply List.mem_filter.mpr
      refine ⟨List.mem_map_of_mem (fun x => Py.strip x.text) he, ?_⟩
      simp [hstrip]
    rw [if_neg hne]
  · apply List.mem_map.mpr
    refine ⟨e, ?_, rfl⟩
    apply List.mem_filter.mpr
    refine ⟨he, ?_⟩
    simp [hstrip]

theorem pages_pairwise_of_numbered (pages : List Page)
    (hp : ∀ ip ∈ pages.enum, ip.2.page_number = ip.1 + 1) :
    List.Pairwise (fun a b => a.page_number < b.page_number) pages := by
  rw [List.pairwise_iff_get]
  intro i j hij
  have hmi : (((i : Nat), pages.get i) : Nat × Page) ∈ pages.enum := by
    rw [List.mem_enum_iff_get?]
    exact List.get?_eq_get i.isLt
  have hmj : (((j : Nat), pages.get j) : Nat × Page) ∈ pages.enum := by
    rw [List.mem_enum_iff_get?]
    exact List.get?_eq_get j.isLt
  have hi : (pages.get i).page_number = (i : Nat) + 1 := hp _ hmi
  have hj : (pages.get j).page_number = (j : Nat) + 1 := hp _ hmj
  have hij' : (i : Nat) < (j : Nat) := hij
  omega

/-! ### C2: counterexample, amended partition theorem and witness -/

/-- C2 counterexample: on a one-page document whose headings are an H1 at
`y = 0` followed by an H2 at `y = 10` on the same page, the segmenter
produces two sections whose contributing-element spans are NOT disjoint:
the H1 section's span is the whole page (its boundary scan looks only for
headings of level ≤ 1, so the H2 heading does not end it) and the H2
section's span repeats the elements from `y = 10` on.  Both spans contain
the occurrences `(1, c2eY)` and `(1, c2eZ)`. -/
theorem c2_counterexample :
    SectionSpans.document_section_spans c2doc =
      Except.ok [[(1, c2eX), (1, c2eY), (1, c2eZ)], [(1, c2eY), (1, c2eZ)]] ∧
    (1, c2eY) ∈ [(1, c2eX), (1, c2eY), (1, c2eZ)] ∧
    (1, c2eY) ∈ [(1, c2eY), (1, c2eZ)] ∧
    (1, c2eZ) ∈ [(1, c2eX), (1, c2eY), (1, c2eZ)] ∧
    (1, c2eZ) ∈ [(1, c2eY), (1, c2eZ)] := by
  exact ⟨by decide, by decide, by decide, by decide, by decide⟩

/-- C2 (amended): when every detected heading carries the same parsed
level, the headings are sorted by their `(page, y)` start, the pages are
numbered consecutively from 1 and all element `y`-coordinates are
non-negative, the spans of contributing `(page, element)` occurrences
computed by `SectionSpans.document_section_spans` are pairwise disjoint,
and they cover every non-blank element from the first heading's start
position onwards (every element of every page when no headings were
detected).  The original claim's unrestricted disjointness is refuted by
`c2_counterexample`: a deeper-level heading starts a new section without
ending the enclosing shallower section, so mixed-level headings overlap. -/
theorem c2_amended_span_partition (doc : DocumentData) (L : String) (nl : Int)
    (spans : List (List (Nat × Element)))
    (hn : RelevanceAnalyzer.levelIntE L = Except.ok nl)
    (hlev : ∀ h ∈ doc.headings, h.level = some L)
    (hsort : List.Pairwise (fun a b => SectionSpans.lexLe (SectionSpans.headingStart a)
      (SectionSpans.headingStart b)) doc.headings)
    (hnum : ∀ ip ∈ doc.pages_data.enum, ip.2.page_number = ip.1 + 1)
    (hy : ∀ pg ∈ doc.pages_data, ∀ e ∈ pg.elements, q0.le e.y_position)
    (hspans : SectionSpans.document_section_spans doc = Except.ok spans) :
    List.Pairwise (fun s t => ∀ pe, pe ∈ s → pe ∉ t) spans ∧
    (∀ h0 rest, doc.headings = h0 :: rest →
      ∀ pg ∈ doc.pages_data, ∀ e ∈ pg.elements, ¬ Py.strip e.text = emptyS →
        SectionSpans.lexLe (SectionSpans.headingStart h0) (pg.page_number, e.y_position) →
        ∃ s ∈ spans, (pg.page_number, e) ∈ s) ∧
    (doc.headings = [] →
      ∀ pg ∈ doc.pages_data, ∀ e ∈ pg.elements, ¬ Py.strip e.text = emptyS →
        ∃ s ∈ spans, (pg.page_number, e) ∈ s) := by
  have hpw := pages_pairwise_of_numbered doc.pages_data hnum
  unfold SectionSpans.document_section_spans at hspans
  by_cases hhd : doc.headings.isEmpty = true
  · rw [if_pos hhd] at hspans
    simp only [Pure.pure, Except.pure, Except.ok.injEq] at hspans
    rw [headless_spans_eq] at hspans
    subst hspans
    refine ⟨?_, ?_, ?_⟩
    · exact headless_pairwise doc.pages_data hpw
    · intro h0 rest heq
      rw [heq] at hhd
      exact absurd hhd (by simp)
    · intro hemp pg hpg e he hstrip
      exact headless_cover doc.pages_data pg hpg e he hstrip
  · rw [if_neg hhd] at hspans
    refine ⟨?_, ?_, ?_⟩
    · exact spans_pairwise_disjoint L nl hn doc.pages_data hpw hy doc.headings spans hlev
        hsort hspans
    · intro h0 rest heq pg hpg e he hstrip hstart
      exact spans_cover L nl hn doc.pages_data hpw hy doc.headings spans h0 rest heq hlev
        hsort hspans pg hpg e he hstrip hstart
    · intro heq
      rw [heq] at hhd
      exact absurd rfl hhd

/-- C2 witness: the amended theorem applied to the concrete document
`c2wdoc` (two same-level H1 headings on a single properly numbered page),
whose two computed spans are disjoint. -/
theorem c2_amended_witness :
    SectionSpans.document_section_spans c2wdoc =
      Except.ok [[(1, c2eX)], [(1, c2eY), (1, c2eZ)]] ∧
    List.Pairwise (fun s t => ∀ pe, pe ∈ s → pe ∉ t)
      [[(1, c2eX)], [(1, c2eY), (1, c2eZ)]] :=
  ⟨by decide,
   (c2_amended_span_partition c2wdoc "H1" 1 [[(1, c2eX)], [(1, c2eY), (1, c2eZ)]]
     (by decide) (by decide) (by decide) (by decide) (by decide) (by decide)).1⟩

/-! ### C10: a same-strategy merge defeats the unrestricted claim -/

/-- C10 counterexample: two elements of identical text in the
fourth-largest font-size group each get a font-cluster candidate at
confidence 0.25; they collide on the merge key `(text[:50], page)`, so
`_combine_strategies` boosts the fused heading to 0.45 with
`detection_methods = ["font_cluster", "font_cluster"]` — produced solely
by the font-clustering strategy, never merged with any other strategy —
and `filter_false_positives` keeps it (0.45 > 0.3), so such a heading
does appear in the final heading list. -/
theorem c10_counterexample :
    HeadingDetector.detect_headings c10pelems = [c10ph] ∧
    c10ph.confidence = qq 9 20 ∧
    c10ph.detection_methods = some ["font_cluster", "font_cluster"] ∧
    c10ph.font_level = some 4 ∧
    HeadingDetector.filter_false_positives (HeadingDetector.detect_headings c10pelems) =
      [c10ph] := by
  exact ⟨by decide, by decide, by decide, by decide, by decide⟩
